import Mathlib

/-!
Verification of the aggregation/metrics engine of the `amana-marketing`
dashboard.  The four dimension aggregators are embedded shallowly:

* `regionalMetrics`   from `app/region-view/page.tsx`   (the `regionalMetrics` memo)
* `deviceMetrics`     from `app/device-view/page.tsx`   (the `deviceMetrics` memo)
* `weeklyMetrics`     from `app/weekly-view/page.tsx`   (the `weeklyMetrics` memo)
* `demographicMetrics` from `app/demographic-view/page.tsx` (the `demographicMetrics` memo)

JavaScript numbers are modelled as `ℚ`; the one place the source divides
without a zero-guard (`percentage_of_traffic`) is modelled as `Option ℚ`,
`none` standing for the non-finite result (`NaN`) JavaScript produces there.
JavaScript string-keyed objects (`regionMap`, `weeklyMap`, the demographic
maps) are modelled as association lists in insertion order: every key used
by the source contains an `_` or `-`, so none is an array index and object
enumeration order is first-insertion order.  An absent dataset
(`!marketingData?.campaigns`) is modelled by applying each aggregator to
`none`; a present list of campaigns by `some campaigns`.
-/

namespace Amana

/-- Base-counter tuples `(impressions, clicks, conversions, spend, revenue)`. -/
abbrev Q5 := ℚ × ℚ × ℚ × ℚ × ℚ

/-- `impressions > 0 ? clicks / impressions * 100 : 0` (source, recomputation of `ctr`). -/
def ctrOf (impressions clicks : ℚ) : ℚ :=
  if 0 < impressions then clicks / impressions * 100 else 0

/-- `clicks > 0 ? conversions / clicks * 100 : 0` (source, recomputation of `conversion_rate`). -/
def convRateOf (clicks conversions : ℚ) : ℚ :=
  if 0 < clicks then conversions / clicks * 100 else 0

/-- `clicks > 0 ? spend / clicks : 0` (source, recomputation of `cpc`). -/
def cpcOf (spend clicks : ℚ) : ℚ :=
  if 0 < clicks then spend / clicks else 0

/-- `conversions > 0 ? spend / conversions : 0` (source, recomputation of `cpa`). -/
def cpaOf (spend conversions : ℚ) : ℚ :=
  if 0 < conversions then spend / conversions else 0

/-- `spend > 0 ? revenue / spend : 0` (source, recomputation of `roas`). -/
def roasOf (spend revenue : ℚ) : ℚ :=
  if 0 < spend then revenue / spend else 0

/-- The unguarded traffic-share division
`impressions / (mobile.impressions + desktop.impressions) * 100`.
`none` models the non-finite JavaScript result of dividing by a zero total
(`NaN` here, since whenever the total of the two buckets is zero so is the
numerator on the data of this program). -/
def trafficShare (part total : ℚ) : Option ℚ :=
  if total = 0 then none else some (part / total * 100)

/-- One step of the JavaScript idiom
`if (!map[k]) map[k] = init; else update` on a string-keyed object:
the first pair with key `k` is replaced by `f (some value)`, and a missing
key is appended at the end (insertion order), holding `f none`. -/
def upsert {β : Type} (k : String) (f : Option β → β) :
    List (String × β) → List (String × β)
  | [] => [(k, f none)]
  | (k', v) :: rest =>
    if k' = k then (k', f (some v)) :: rest else (k', v) :: upsert k f rest

/-- A regional breakdown entry of one campaign (`RegionalPerformance` in
`src/types/marketing`), with the stored derived fields the dataset carries. -/
structure RegionalPerformance where
  region : String
  country : String
  impressions : ℚ
  clicks : ℚ
  conversions : ℚ
  spend : ℚ
  revenue : ℚ
  ctr : ℚ
  conversion_rate : ℚ
  cpc : ℚ
  cpa : ℚ
  roas : ℚ
deriving DecidableEq

/-- A device breakdown entry of one campaign (`DevicePerformance`). -/
structure DevicePerformance where
  device : String
  impressions : ℚ
  clicks : ℚ
  conversions : ℚ
  spend : ℚ
  revenue : ℚ
  ctr : ℚ
  conversion_rate : ℚ
deriving DecidableEq

/-- A weekly breakdown entry of one campaign (`WeeklyPerformance`); only the
fields the weekly aggregator reads are modelled. -/
structure WeeklyPerformance where
  week_start : String
  week_end : String
  impressions : ℚ
  clicks : ℚ
  conversions : ℚ
  spend : ℚ
  revenue : ℚ
deriving DecidableEq

/-- The raw (unscaled) performance sub-record of a demographic breakdown. -/
structure DemoPerformance where
  impressions : ℚ
  clicks : ℚ
  conversions : ℚ
deriving DecidableEq

/-- A demographic breakdown entry of one campaign (`DemographicBreakdown`). -/
structure DemographicBreakdown where
  age_group : String
  gender : String
  percentage_of_audience : ℚ
  performance : DemoPerformance
deriving DecidableEq

/-- One marketing campaign (`Campaign`): aggregate totals plus the four
per-dimension breakdown sequences. -/
structure Campaign where
  name : String
  impressions : ℚ
  clicks : ℚ
  conversions : ℚ
  spend : ℚ
  revenue : ℚ
  regional_performance : List RegionalPerformance
  device_performance : List DevicePerformance
  weekly_performance : List WeeklyPerformance
  demographic_breakdown : List DemographicBreakdown
deriving DecidableEq

/-- A `{label, value, color}` chart point. -/
structure ChartPoint where
  label : String
  value : ℚ
  color : String
deriving DecidableEq

/-! ## Regional aggregator (`app/region-view/page.tsx`, `regionalMetrics`) -/

/-- A value of `regionMap`: a spread copy of a `RegionalPerformance` entry
plus the `campaignCount` of contributing entries.  The coordinate lookup
(`lat`/`lng` from `UAE_CITY_COORDINATES`) and the caller-selected generic
`value` field are presentation decoration of the same record and are not
modelled. -/
structure RegionGroup extends RegionalPerformance where
  campaignCount : ℕ
deriving DecidableEq

/-- The grouping key `` `${region.region}_${region.country}` ``. -/
def regKey (e : RegionalPerformance) : String :=
  e.region ++ "_" ++ e.country

/-- First entry for a key: `regionMap[regionKey] = { ...region, campaignCount: 1 }` —
the entry is spread, so its stored derived fields are copied verbatim and
not recomputed. -/
def regInit (e : RegionalPerformance) : RegionGroup :=
  { e with campaignCount := 1 }

/-- Later entry for an existing key: the five base counters and
`campaignCount` are accumulated, then all five derived metrics are
recalculated from the updated sums. -/
def regAdd (r : RegionGroup) (e : RegionalPerformance) : RegionGroup :=
  let impressions := r.impressions + e.impressions
  let clicks := r.clicks + e.clicks
  let conversions := r.conversions + e.conversions
  let spend := r.spend + e.spend
  let revenue := r.revenue + e.revenue
  { r with
    impressions := impressions, clicks := clicks, conversions := conversions,
    spend := spend, revenue := revenue,
    campaignCount := r.campaignCount + 1,
    ctr := ctrOf impressions clicks,
    conversion_rate := convRateOf clicks conversions,
    cpc := cpcOf spend clicks,
    cpa := cpaOf spend conversions,
    roas := roasOf spend revenue }

/-- The map update one regional entry performs: spread-initialise an absent
key, accumulate-and-recompute a present one. -/
def regUpd (e : RegionalPerformance) : Option RegionGroup → RegionGroup
  | none => regInit e
  | some r => regAdd r e

/-- One body of the inner `forEach` over `campaign.regional_performance`. -/
def regStep (m : List (String × RegionGroup)) (e : RegionalPerformance) :
    List (String × RegionGroup) :=
  upsert (regKey e) (regUpd e) m

/-- The fully folded `regionMap`. -/
def regMapOf (campaigns : List Campaign) : List (String × RegionGroup) :=
  campaigns.foldl (fun m c => c.regional_performance.foldl regStep m) []

/-- `Object.values(regionMap)` in insertion order. -/
def regionalDataOf (campaigns : List Campaign) : List RegionGroup :=
  (regMapOf campaigns).map (·.2)

/-- `top?.revenue || 0`: the JavaScript `|| 0` only turns a falsy revenue
(`0`) into `0` itself, so over `ℚ` it is the plain projection with `0` for
`null`. -/
def bestRev : Option RegionGroup → ℚ
  | none => 0
  | some t => t.revenue

/-- One step of the `reduce` that finds the top region:
`current.revenue > (top?.revenue || 0) ? current : top`. -/
def topStep (top : Option RegionGroup) (cur : RegionGroup) : Option RegionGroup :=
  if bestRev top < cur.revenue then some cur else top

/-- The grand-total `reduce` over `regionalData`, in the source's field order
`(totalRevenue, totalSpend, totalImpressions, totalClicks, totalConversions)`. -/
def regTotals (l : List RegionGroup) : Q5 :=
  l.foldl (fun acc r =>
    (acc.1 + r.revenue, acc.2.1 + r.spend, acc.2.2.1 + r.impressions,
     acc.2.2.2.1 + r.clicks, acc.2.2.2.2 + r.conversions)) (0, 0, 0, 0, 0)

/-- The value returned by the `regionalMetrics` memo. -/
structure RegionalMetrics where
  totalRevenue : ℚ
  totalSpend : ℚ
  totalImpressions : ℚ
  totalClicks : ℚ
  totalConversions : ℚ
  regionalData : List RegionGroup
  topRegion : Option RegionGroup
deriving DecidableEq

/-- The `regionalMetrics` memo.  `none` models `!marketingData?.campaigns`
(the early-returned all-zero object); `some campaigns` the loaded dataset. -/
def regionalMetrics : Option (List Campaign) → RegionalMetrics
  | none => ⟨0, 0, 0, 0, 0, [], none⟩
  | some campaigns =>
    let regionalData := regionalDataOf campaigns
    let t := regTotals regionalData
    { totalRevenue := t.1, totalSpend := t.2.1, totalImpressions := t.2.2.1,
      totalClicks := t.2.2.2.1, totalConversions := t.2.2.2.2,
      regionalData := regionalData,
      topRegion := regionalData.foldl topStep none }

/-! ## Weekly aggregator (`app/weekly-view/page.tsx`, `weeklyMetrics`) -/

/-- The grouping key `` `${week.week_start}_${week.week_end}` ``. -/
def weekKey (w : WeeklyPerformance) : String :=
  w.week_start ++ "_" ++ w.week_end

/-- Accumulation of one further weekly entry onto an existing group:
only the five base counters are summed, nothing is recomputed. -/
def weekAdd (r w : WeeklyPerformance) : WeeklyPerformance :=
  { r with
    impressions := r.impressions + w.impressions,
    clicks := r.clicks + w.clicks,
    conversions := r.conversions + w.conversions,
    spend := r.spend + w.spend,
    revenue := r.revenue + w.revenue }

/-- The map update one weekly entry performs: a first entry is spread
(`weeklyMap[weekKey] = { ...week }`), a later one is accumulated. -/
def weekUpd (w : WeeklyPerformance) : Option WeeklyPerformance → WeeklyPerformance
  | none => w
  | some r => weekAdd r w

/-- One body of the inner `forEach` over `campaign.weekly_performance`. -/
def weekStep (m : List (String × WeeklyPerformance)) (w : WeeklyPerformance) :
    List (String × WeeklyPerformance) :=
  upsert (weekKey w) (weekUpd w) m

/-- The fully folded `weeklyMap`. -/
def weeklyMapOf (campaigns : List Campaign) : List (String × WeeklyPerformance) :=
  campaigns.foldl (fun m c => c.weekly_performance.foldl weekStep m) []

/-- Digit-string to number, `none` on a non-digit or an empty field. -/
def digitsVal : List Char → Option ℕ
  | [] => none
  | cs =>
    cs.foldl (fun acc c =>
      match acc with
      | none => none
      | some n => if c.isDigit then some (n * 10 + (c.toNat - 48)) else none)
      (some 0)

/-- Split a character list on `'-'`. -/
def splitDash : List Char → List (List Char)
  | [] => [[]]
  | c :: rest =>
    if c = '-' then [] :: splitDash rest
    else
      match splitDash rest with
      | [] => [[c]]
      | f :: fs => (c :: f) :: fs

/-- Modelled from the spec: the "parsed `week_start` date value" produced by
the JavaScript `new Date(week_start).getTime()` builtin, which is not part
of this repository.  Only the chronological order the sort comparator reads
off matters, so a valid `"YYYY-MM-DD"` string is encoded order-faithfully as
`year * 512 + month * 32 + day` (strictly increasing in `(year, month, day)`)
rather than as epoch milliseconds; an unparseable string yields `none`
(JavaScript `NaN`). -/
def parseDate (s : String) : Option ℤ :=
  match splitDash s.data with
  | [y, m, d] =>
    match digitsVal y, digitsVal m, digitsVal d with
    | some yn, some mn, some dn =>
      if 1 ≤ mn ∧ mn ≤ 12 ∧ 1 ≤ dn ∧ dn ≤ 31 then
        some ((yn : ℤ) * 512 + (mn : ℤ) * 32 + (dn : ℤ))
      else none
    | _, _, _ => none
  | _ => none

/-- The numeric value the sort comparator uses.  On an unparseable string the
JavaScript comparator returns `NaN` and the resulting order is unspecified;
the model substitutes `0` there, which no claim depends on. -/
def dateVal (s : String) : ℤ :=
  (parseDate s).getD 0

/-- The order of `.sort((a, b) => new Date(a.week_start).getTime() - new Date(b.week_start).getTime())`. -/
def wle (a b : WeeklyPerformance) : Prop :=
  dateVal a.week_start ≤ dateVal b.week_start

instance : DecidableRel wle := fun a b =>
  inferInstanceAs (Decidable (dateVal a.week_start ≤ dateVal b.week_start))

instance : IsTotal WeeklyPerformance wle :=
  ⟨fun a b => le_total (dateVal a.week_start) (dateVal b.week_start)⟩

instance : IsTrans WeeklyPerformance wle :=
  ⟨fun _ _ _ hab hbc => le_trans hab hbc⟩

/-- `Object.values(weeklyMap)` sorted ascending by parsed `week_start`.
JavaScript `Array.prototype.sort` with this comparator is a stable sort with
respect to a total preorder, and any such sort produces this one list. -/
def weeklyGroups (campaigns : List Campaign) : List WeeklyPerformance :=
  List.insertionSort wle ((weeklyMapOf campaigns).map (·.2))

/-- The grand-total `reduce` over the sorted `weeklyData`, in the source's
field order `(totalRevenue, totalSpend, totalImpressions, totalClicks,
totalConversions)`. -/
def weekTotals (l : List WeeklyPerformance) : Q5 :=
  l.foldl (fun acc w =>
    (acc.1 + w.revenue, acc.2.1 + w.spend, acc.2.2.1 + w.impressions,
     acc.2.2.2.1 + w.clicks, acc.2.2.2.2 + w.conversions)) (0, 0, 0, 0, 0)

/-- The value returned by the `weeklyMetrics` memo.  The four chart series
carry locale-formatted labels and a constant color; only their `value`
streams are modelled.  The early-return object for an absent dataset has no
`weeklyData` property at all (it is `undefined`, not `[]`), which is modelled
by `Option`. -/
structure WeeklyMetrics where
  totalRevenue : ℚ
  totalSpend : ℚ
  totalImpressions : ℚ
  totalClicks : ℚ
  totalConversions : ℚ
  revenueByWeek : List ℚ
  spendByWeek : List ℚ
  impressionsByWeek : List ℚ
  clicksByWeek : List ℚ
  weeklyData : Option (List WeeklyPerformance)
deriving DecidableEq

/-- The `weeklyMetrics` memo. -/
def weeklyMetrics : Option (List Campaign) → WeeklyMetrics
  | none => ⟨0, 0, 0, 0, 0, [], [], [], [], none⟩
  | some campaigns =>
    let weeklyData := weeklyGroups campaigns
    let t := weekTotals weeklyData
    { totalRevenue := t.1, totalSpend := t.2.1, totalImpressions := t.2.2.1,
      totalClicks := t.2.2.2.1, totalConversions := t.2.2.2.2,
      revenueByWeek := weeklyData.map (·.revenue),
      spendByWeek := weeklyData.map (·.spend),
      impressionsByWeek := weeklyData.map (·.impressions),
      clicksByWeek := weeklyData.map (·.clicks),
      weeklyData := some weeklyData }

/-! ## Device aggregator (`app/device-view/page.tsx`, `deviceMetrics`) -/

/-- One of the two device buckets (`mobileData` / `desktopData`). -/
structure DeviceBucket where
  impressions : ℚ
  clicks : ℚ
  conversions : ℚ
  spend : ℚ
  revenue : ℚ
  ctr : ℚ
  conversion_rate : ℚ
  percentage_of_traffic : Option ℚ
  campaignCount : ℕ
deriving DecidableEq

/-- The initial bucket literal (all numeric fields `0`). -/
def emptyBucket : DeviceBucket :=
  ⟨0, 0, 0, 0, 0, 0, 0, some 0, 0⟩

/-- Accumulating one matching entry into a bucket. -/
def bumpBucket (b : DeviceBucket) (d : DevicePerformance) : DeviceBucket :=
  { b with
    impressions := b.impressions + d.impressions,
    clicks := b.clicks + d.clicks,
    conversions := b.conversions + d.conversions,
    spend := b.spend + d.spend,
    revenue := b.revenue + d.revenue,
    campaignCount := b.campaignCount + 1 }

/-- One row of the flat `performanceByCampaign` list: the entry's own
counters and stored `ctr`/`conversion_rate`, plus an inline
`roas: device.spend > 0 ? device.revenue / device.spend : 0`. -/
structure DeviceRow where
  campaignName : String
  device : String
  impressions : ℚ
  clicks : ℚ
  conversions : ℚ
  spend : ℚ
  revenue : ℚ
  ctr : ℚ
  conversion_rate : ℚ
  roas : ℚ
deriving DecidableEq

/-- The row pushed for every device entry of every campaign. -/
def deviceRow (campaignName : String) (d : DevicePerformance) : DeviceRow :=
  ⟨campaignName, d.device, d.impressions, d.clicks, d.conversions, d.spend,
   d.revenue, d.ctr, d.conversion_rate,
   if 0 < d.spend then d.revenue / d.spend else 0⟩

/-- The mutable state of the device pass: the two buckets and the pushed rows. -/
structure DevAcc where
  mobile : DeviceBucket
  desktop : DeviceBucket
  rows : List DeviceRow
deriving DecidableEq

/-- One body of the inner `forEach` over `campaign.device_performance`:
an entry labelled exactly `"Mobile"` or `"Desktop"` is accumulated into its
bucket, anything else is dropped from both; a row is pushed for every entry
regardless. -/
def devStep (campaignName : String) (acc : DevAcc) (d : DevicePerformance) : DevAcc :=
  let acc1 :=
    if d.device = "Mobile" then { acc with mobile := bumpBucket acc.mobile d }
    else if d.device = "Desktop" then { acc with desktop := bumpBucket acc.desktop d }
    else acc
  { acc1 with rows := acc1.rows ++ [deviceRow campaignName d] }

/-- The fully folded device pass. -/
def devAccOf (campaigns : List Campaign) : DevAcc :=
  campaigns.foldl
    (fun acc c => c.device_performance.foldl (devStep c.name) acc)
    ⟨emptyBucket, emptyBucket, []⟩

/-- The post-pass derived-metric mutation of both buckets: `ctr` and
`conversion_rate` are zero-guarded, `percentage_of_traffic` divides by the
shared `mobile.impressions + desktop.impressions` total unguarded. -/
def finalizeBucket (b : DeviceBucket) (sharedImpressions : ℚ) : DeviceBucket :=
  { b with
    ctr := ctrOf b.impressions b.clicks,
    conversion_rate := convRateOf b.clicks b.conversions,
    percentage_of_traffic := trafficShare b.impressions sharedImpressions }

/-- The value returned by the `deviceMetrics` memo. -/
structure DeviceMetrics where
  mobile : DeviceBucket
  desktop : DeviceBucket
  deviceComparison : List ChartPoint
  performanceByCampaign : List DeviceRow
  roasComparison : List ChartPoint
  conversionRateComparison : List ChartPoint
deriving DecidableEq

/-- The `deviceMetrics` memo. -/
def deviceMetrics : Option (List Campaign) → DeviceMetrics
  | none => ⟨emptyBucket, emptyBucket, [], [], [], []⟩
  | some campaigns =>
    let acc := devAccOf campaigns
    let shared := acc.mobile.impressions + acc.desktop.impressions
    let mobileData := finalizeBucket acc.mobile shared
    let desktopData := finalizeBucket acc.desktop shared
    { mobile := mobileData,
      desktop := desktopData,
      deviceComparison :=
        [⟨"Mobile", mobileData.revenue, "#3B82F6"⟩,
         ⟨"Desktop", desktopData.revenue, "#10B981"⟩],
      performanceByCampaign := acc.rows,
      roasComparison :=
        [⟨"Mobile", roasOf mobileData.spend mobileData.revenue, "#3B82F6"⟩,
         ⟨"Desktop", roasOf desktopData.spend desktopData.revenue, "#10B981"⟩],
      conversionRateComparison :=
        [⟨"Mobile", mobileData.conversion_rate, "#3B82F6"⟩,
         ⟨"Desktop", desktopData.conversion_rate, "#10B981"⟩] }

/-! ## Demographic aggregator (`app/demographic-view/page.tsx`, `demographicMetrics`) -/

/-- A value of `maleAgeGroupMap` / `femaleAgeGroupMap` during the pass. -/
structure AgeData where
  impressions : ℚ
  clicks : ℚ
  conversions : ℚ
  ctr : ℚ
  conversion_rate : ℚ
deriving DecidableEq

/-- The initialisation literal for a fresh age-group record. -/
def zeroAgeData : AgeData :=
  ⟨0, 0, 0, 0, 0⟩

/-- Adding one entry's raw `performance` counters (unscaled). -/
def addPerf (d : AgeData) (p : DemoPerformance) : AgeData :=
  { d with
    impressions := d.impressions + p.impressions,
    clicks := d.clicks + p.clicks,
    conversions := d.conversions + p.conversions }

/-- The mutable state of the demographic pass. -/
structure DemoAcc where
  maleClicks : ℚ
  maleSpend : ℚ
  maleRevenue : ℚ
  femaleClicks : ℚ
  femaleSpend : ℚ
  femaleRevenue : ℚ
  ageSpendMap : List (String × ℚ)
  ageRevMap : List (String × ℚ)
  maleMap : List (String × AgeData)
  femaleMap : List (String × AgeData)
deriving DecidableEq

/-- The model of JavaScript's `String.prototype.toLowerCase` builtin (not
repository code): `s.toLowerCase() === lit`, i.e. lower-casing every
character and comparing. -/
def lowerIs (s lit : String) : Bool :=
  s.data.map Char.toLower == lit.data

/-- `if (!map[k]) map[k] = 0`: inserts `0` at the key's first encounter and
rewrites a stored falsy value (`0`) to `0` otherwise. -/
def initZero : Option ℚ → ℚ :=
  fun o => o.getD 0

/-- `map[k] += a` on a key guaranteed present-or-zero. -/
def addAlloc (a : ℚ) : Option ℚ → ℚ :=
  fun o => o.getD 0 + a

/-- `if (!map[k]) map[k] = zero-record` followed by the three `+=` lines on
the raw `performance` counters. -/
def addAge (p : DemoPerformance) : Option AgeData → AgeData :=
  fun o => addPerf (o.getD zeroAgeData) p

/-- One body of the inner `forEach` over `campaign.demographic_breakdown`:
the age-map zero-initialisation, the gender branch, and the unconditional
cross-gender allocated accumulation, in source order. -/
def demoStep (cSpend cRevenue : ℚ) (st : DemoAcc) (b : DemographicBreakdown) : DemoAcc :=
  let audiencePercentage := b.percentage_of_audience / 100
  let allocatedSpend := cSpend * audiencePercentage
  let allocatedRevenue := cRevenue * audiencePercentage
  let st1 :=
    { st with
      ageSpendMap := upsert b.age_group initZero st.ageSpendMap,
      ageRevMap := upsert b.age_group initZero st.ageRevMap }
  let st2 :=
    if lowerIs b.gender "male" then
      { st1 with
        maleClicks := st1.maleClicks + b.performance.clicks,
        maleSpend := st1.maleSpend + allocatedSpend,
        maleRevenue := st1.maleRevenue + allocatedRevenue,
        maleMap := upsert b.age_group (addAge b.performance) st1.maleMap }
    else if lowerIs b.gender "female" then
      { st1 with
        femaleClicks := st1.femaleClicks + b.performance.clicks,
        femaleSpend := st1.femaleSpend + allocatedSpend,
        femaleRevenue := st1.femaleRevenue + allocatedRevenue,
        femaleMap := upsert b.age_group (addAge b.performance) st1.femaleMap }
    else st1
  { st2 with
    ageSpendMap := upsert b.age_group (addAlloc allocatedSpend) st2.ageSpendMap,
    ageRevMap := upsert b.age_group (addAlloc allocatedRevenue) st2.ageRevMap }

/-- The initial all-zero demographic state. -/
def demoInit : DemoAcc :=
  ⟨0, 0, 0, 0, 0, 0, [], [], [], []⟩

/-- The fully folded demographic pass. -/
def demoAccOf (campaigns : List Campaign) : DemoAcc :=
  campaigns.foldl
    (fun st c => c.demographic_breakdown.foldl (demoStep c.spend c.revenue) st)
    demoInit

/-- One row of `maleAgeGroups` / `femaleAgeGroups`: the folded raw counters
of one age group with `ctr` and `conversion_rate` recomputed once at the end
of the pass. -/
structure AgeRow where
  age_group : String
  impressions : ℚ
  clicks : ℚ
  conversions : ℚ
  ctr : ℚ
  conversion_rate : ℚ
deriving DecidableEq

/-- `Object.entries` of a per-gender age map after the final
`ctr`/`conversion_rate` recomputation over every key. -/
def ageRows (m : List (String × AgeData)) : List AgeRow :=
  m.map (fun p =>
    ⟨p.1, p.2.impressions, p.2.clicks, p.2.conversions,
     ctrOf p.2.impressions p.2.clicks,
     convRateOf p.2.clicks p.2.conversions⟩)

/-- The value returned by the `demographicMetrics` memo. -/
structure DemographicMetrics where
  maleClicks : ℚ
  maleSpend : ℚ
  maleRevenue : ℚ
  femaleClicks : ℚ
  femaleSpend : ℚ
  femaleRevenue : ℚ
  ageGroupSpend : List ChartPoint
  ageGroupRevenue : List ChartPoint
  maleAgeGroups : List AgeRow
  femaleAgeGroups : List AgeRow
deriving DecidableEq

/-- The `demographicMetrics` memo. -/
def demographicMetrics : Option (List Campaign) → DemographicMetrics
  | none => ⟨0, 0, 0, 0, 0, 0, [], [], [], []⟩
  | some campaigns =>
    let st := demoAccOf campaigns
    { maleClicks := st.maleClicks, maleSpend := st.maleSpend,
      maleRevenue := st.maleRevenue,
      femaleClicks := st.femaleClicks, femaleSpend := st.femaleSpend,
      femaleRevenue := st.femaleRevenue,
      ageGroupSpend := st.ageSpendMap.map (fun p => ⟨p.1, p.2, "#3B82F6"⟩),
      ageGroupRevenue := st.ageRevMap.map (fun p => ⟨p.1, p.2, "#10B981"⟩),
      maleAgeGroups := ageRows st.maleMap,
      femaleAgeGroups := ageRows st.femaleMap }

/-! ## Reading functions for the statements

The claims speak about "the per-group base counters" of an aggregator's
output and about sums of contributions over the input entries.  The
following definitions spell those readings out; they follow the spec's
wording and are compared with the aggregator output built above. -/

/-- The base counters of a regional breakdown entry. -/
def regEC (e : RegionalPerformance) : Q5 :=
  (e.impressions, e.clicks, e.conversions, e.spend, e.revenue)

/-- The base counters of a regional group record. -/
def regC (r : RegionGroup) : Q5 :=
  (r.impressions, r.clicks, r.conversions, r.spend, r.revenue)

/-- Summed base counters of the output groups whose (region, country) key is
`k` (the aggregator produces at most one such group). -/
def regAt (k : String) (l : List RegionGroup) : Q5 :=
  ((l.filter (fun r => regKey r.toRegionalPerformance == k)).map regC).sum

/-- Every regional breakdown entry of every campaign, in processing order. -/
def regEntries (campaigns : List Campaign) : List RegionalPerformance :=
  campaigns.flatMap (·.regional_performance)

/-- Summed base counters of the entries of `es` carrying key `k`. -/
def regContrib (k : String) (es : List RegionalPerformance) : Q5 :=
  ((es.filter (fun e => regKey e == k)).map regEC).sum

/-- The base counters of a weekly entry or group. -/
def weekC (w : WeeklyPerformance) : Q5 :=
  (w.impressions, w.clicks, w.conversions, w.spend, w.revenue)

/-- Summed base counters of the weekly records of `l` whose
(week_start, week_end) key is `k`. -/
def weekAt (k : String) (l : List WeeklyPerformance) : Q5 :=
  ((l.filter (fun w => weekKey w == k)).map weekC).sum

/-- Every weekly breakdown entry of every campaign, in processing order. -/
def weekEntries (campaigns : List Campaign) : List WeeklyPerformance :=
  campaigns.flatMap (·.weekly_performance)

/-- The base counters of a device bucket. -/
def devC (b : DeviceBucket) : Q5 :=
  (b.impressions, b.clicks, b.conversions, b.spend, b.revenue)

/-- The base counters of a device breakdown entry. -/
def devEC (d : DevicePerformance) : Q5 :=
  (d.impressions, d.clicks, d.conversions, d.spend, d.revenue)

/-- Every device breakdown entry of every campaign, paired with its
campaign's name, in processing order. -/
def devEntries (campaigns : List Campaign) : List (String × DevicePerformance) :=
  campaigns.flatMap (fun c => c.device_performance.map (fun d => (c.name, d)))

/-- Summed base counters of the device entries labelled exactly `label`. -/
def devContrib (label : String) (campaigns : List Campaign) : Q5 :=
  (((devEntries campaigns).filter (fun p => p.2.device == label)).map
    (fun p => devEC p.2)).sum

/-- A campaign with the device entries labelled neither exactly `"Mobile"`
nor exactly `"Desktop"` removed (the labels the aggregator recognises). -/
def dropUnknownDevices (c : Campaign) : Campaign :=
  { c with device_performance :=
      (c.device_performance.filter
        (fun d => d.device == "Mobile" || d.device == "Desktop")) }

/-- Every demographic breakdown entry of every campaign, paired with its
campaign's total spend and revenue, in processing order. -/
def demoEntries (campaigns : List Campaign) :
    List (ℚ × ℚ × DemographicBreakdown) :=
  campaigns.flatMap
    (fun c => c.demographic_breakdown.map (fun b => (c.spend, c.revenue, b)))

/-- The spend the spec allocates to one demographic entry:
campaign spend × `percentage_of_audience / 100`. -/
def allocSpend (e : ℚ × ℚ × DemographicBreakdown) : ℚ :=
  e.1 * (e.2.2.percentage_of_audience / 100)

/-- The revenue the spec allocates to one demographic entry:
campaign revenue × `percentage_of_audience / 100`. -/
def allocRevenue (e : ℚ × ℚ × DemographicBreakdown) : ℚ :=
  e.2.1 * (e.2.2.percentage_of_audience / 100)

/-- The demographic entries whose gender matches `g` case-insensitively. -/
def genderEntries (g : String) (campaigns : List Campaign) :
    List (ℚ × ℚ × DemographicBreakdown) :=
  (demoEntries campaigns).filter (fun e => lowerIs e.2.2.gender g)

/-- Spec reading of a gender's clicks total: raw `performance.clicks` summed
over every matching entry. -/
def genderClicks (g : String) (campaigns : List Campaign) : ℚ :=
  ((genderEntries g campaigns).map (fun e => e.2.2.performance.clicks)).sum

/-- Spec reading of a gender's spend total: allocated spend summed over
every matching entry. -/
def genderSpend (g : String) (campaigns : List Campaign) : ℚ :=
  ((genderEntries g campaigns).map allocSpend).sum

/-- Spec reading of a gender's revenue total: allocated revenue summed over
every matching entry. -/
def genderRevenue (g : String) (campaigns : List Campaign) : ℚ :=
  ((genderEntries g campaigns).map allocRevenue).sum

/-- Summed `value` of the chart points of `l` labelled `k`. -/
def chartAt (k : String) (l : List ChartPoint) : ℚ :=
  ((l.filter (fun p => p.label == k)).map (·.value)).sum

/-- The raw counters `(impressions, clicks, conversions)` of an age record. -/
def ageC (a : AgeData) : ℚ × ℚ × ℚ :=
  (a.impressions, a.clicks, a.conversions)

/-- The raw counters of a demographic `performance` sub-record. -/
def demoPC (p : DemoPerformance) : ℚ × ℚ × ℚ :=
  (p.impressions, p.clicks, p.conversions)

/-- Summed raw counters of the age-group rows of `l` for age group `k`. -/
def ageRowAt (k : String) (l : List AgeRow) : ℚ × ℚ × ℚ :=
  ((l.filter (fun r => r.age_group == k)).map
    (fun r => (r.impressions, r.clicks, r.conversions))).sum

/-- Folding a projection of the values stored under key `k` of an
association list (used to characterise the JavaScript grouping maps). -/
def fSum {β γ : Type} [AddCommMonoid γ] (proj : β → γ) (k : String) :
    List (String × β) → γ
  | [] => 0
  | p :: rest => if p.1 = k then proj p.2 + fSum proj k rest else fSum proj k rest

/-- The device pass over the flattened `(campaign name, entry)` stream. -/
def devEStep : DevAcc → String × DevicePerformance → DevAcc :=
  fun acc p => devStep p.1 acc p.2

/-- The demographic pass over the flattened `(spend, revenue, entry)` stream. -/
def demoEStep : DemoAcc → ℚ × ℚ × DemographicBreakdown → DemoAcc :=
  fun st e => demoStep e.1 e.2.1 st e.2.2

/-- The §4.1 invariant for one regional group record: every derived metric
is the corresponding formula applied to its own base counters. -/
def derivedEqs (r : RegionGroup) : Prop :=
  r.ctr = ctrOf r.impressions r.clicks ∧
  r.conversion_rate = convRateOf r.clicks r.conversions ∧
  r.cpc = cpcOf r.spend r.clicks ∧
  r.cpa = cpaOf r.spend r.conversions ∧
  r.roas = roasOf r.spend r.revenue

instance (r : RegionGroup) : Decidable (derivedEqs r) :=
  inferInstanceAs (Decidable (_ ∧ _ ∧ _ ∧ _ ∧ _))

/-! ## Concrete data used by counterexamples and witnesses -/

/-- A single regional entry whose stored `ctr` (999) disagrees with the
§4.1 formula on its own counters (which gives 5). -/
def cexRegionalEntry : RegionalPerformance :=
  ⟨"Dubai", "UAE", 1000, 50, 5, 100, 300, 999, 0, 0, 0, 0⟩

/-- A campaign contributing exactly one regional entry. -/
def cexCampaignC1 : Campaign :=
  ⟨"C1", 1000, 50, 5, 100, 300, [cexRegionalEntry], [], [], []⟩

/-- First campaign of the spec's §8.7 end-to-end example. -/
def e2eCampaign1 : Campaign :=
  ⟨"A", 1000, 50, 5, 100, 300,
   [⟨"Dubai", "UAE", 1000, 50, 5, 100, 300, 5, 10, 2, 20, 3⟩], [], [], []⟩

/-- Second campaign of the spec's §8.7 end-to-end example. -/
def e2eCampaign2 : Campaign :=
  ⟨"B", 2000, 100, 10, 200, 600,
   [⟨"Dubai", "UAE", 2000, 100, 10, 200, 600, 5, 10, 2, 20, 3⟩], [], [], []⟩

/-- The folded §8.7 group: summed counters with all five derived metrics
recomputed, two contributing entries. -/
def e2eGroup : RegionGroup :=
  ⟨⟨"Dubai", "UAE", 3000, 150, 15, 300, 900, 5, 10, 2, 20, 3⟩, 2⟩

/-- First of two regional entries tied at revenue 500. -/
def tieEntryA : RegionalPerformance :=
  ⟨"Dubai", "UAE", 0, 0, 0, 0, 500, 0, 0, 0, 0, 0⟩

/-- Second of two regional entries tied at revenue 500. -/
def tieEntryB : RegionalPerformance :=
  ⟨"Sharjah", "UAE", 0, 0, 0, 0, 500, 0, 0, 0, 0, 0⟩

/-- A campaign producing two groups with equal revenue. -/
def tieCampaign : Campaign :=
  ⟨"T", 0, 0, 0, 0, 1000, [tieEntryA, tieEntryB], [], [], []⟩

/-- The group built from the first tied entry. -/
def tieGroupA : RegionGroup :=
  ⟨tieEntryA, 1⟩

/-- A campaign whose weekly entries arrive in the order
February, January, March. -/
def weeklyCampaign : Campaign :=
  ⟨"W", 0, 0, 0, 0, 0, [], [],
   [⟨"2024-02-01", "2024-02-07", 10, 1, 0, 5, 7⟩,
    ⟨"2024-01-01", "2024-01-07", 20, 2, 0, 6, 8⟩,
    ⟨"2024-03-01", "2024-03-07", 30, 3, 0, 7, 9⟩], []⟩

/-- A `"Mobile"` device entry. -/
def devMob : DevicePerformance :=
  ⟨"Mobile", 100, 10, 1, 50, 80, 10, 10⟩

/-- A `"Tablet"` device entry with zero spend. -/
def devTab : DevicePerformance :=
  ⟨"Tablet", 40, 4, 2, 0, 30, 10, 50⟩

/-- A campaign with one recognised and one unrecognised device entry. -/
def devCampaign : Campaign :=
  ⟨"D", 0, 0, 0, 0, 0, [], [devMob, devTab], [], []⟩

/-- The §8.4 allocation example: spend 1000, revenue 2000, two demographic
entries at 60% and 40% of audience. -/
def allocCampaign : Campaign :=
  ⟨"P", 0, 0, 0, 1000, 2000, [], [], [],
   [⟨"18-24", "Male", 60, ⟨500, 50, 5⟩⟩,
    ⟨"25-34", "Female", 40, ⟨300, 30, 3⟩⟩]⟩

/-! ## Supporting lemmas about `upsert` -/

theorem fSum_eq_filterSum {β γ : Type} [AddCommMonoid γ] (proj : β → γ)
    (k : String) (m : List (String × β)) :
    fSum proj k m =
      ((m.filter (fun p => p.1 == k)).map (fun p => proj p.2)).sum := by
  induction m with
  | nil => simp [fSum]
  | cons p rest ih =>
    by_cases h : p.1 = k <;> simp [fSum, List.filter_cons, h, ih]

theorem fSum_upsert_self {β γ : Type} [AddCommMonoid γ] (proj : β → γ)
    (k : String) (f : Option β → β) (x : γ)
    (h0 : proj (f none) = x) (h1 : ∀ v, proj (f (some v)) = proj v + x)
    (m : List (String × β)) :
    fSum proj k (upsert k f m) = fSum proj k m + x := by
  induction m with
  | nil => simp [upsert, fSum, h0]
  | cons p rest ih =>
    obtain ⟨k', v⟩ := p
    by_cases hk : k' = k
    · simp only [upsert, if_pos hk, fSum, h1 v]
      simp [hk, add_right_comm]
    · simp only [upsert, if_neg hk, fSum]
      simp [hk, ih]

theorem fSum_upsert_ne {β γ : Type} [AddCommMonoid γ] (proj : β → γ)
    (k₀ k : String) (h : ¬ k = k₀) (f : Option β → β)
    (m : List (String × β)) :
    fSum proj k₀ (upsert k f m) = fSum proj k₀ m := by
  induction m with
  | nil => simp [upsert, fSum, h]
  | cons p rest ih =>
    obtain ⟨k', v⟩ := p
    by_cases hk : k' = k
    · have hne : ¬ k' = k₀ := by rw [hk]; exact h
      simp only [upsert, if_pos hk, fSum]
      simp [hne]
    · simp only [upsert, if_neg hk, fSum]
      by_cases hq : k' = k₀ <;> simp [hq, ih]

theorem upsert_forall {β : Type} {P : String × β → Prop} (k : String)
    (f : Option β → β) (m : List (String × β))
    (hf0 : P (k, f none)) (hf1 : ∀ v, P (k, v) → P (k, f (some v))) :
    (∀ p ∈ m, P p) → ∀ p ∈ upsert k f m, P p := by
  induction m with
  | nil =>
    intro _ p hp
    have hp' : p = (k, f none) := by simpa [upsert] using hp
    rw [hp']
    exact hf0
  | cons q rest ih =>
    obtain ⟨k', v⟩ := q
    intro hm p hp
    by_cases hk : k' = k
    · simp only [upsert, if_pos hk] at hp
      rcases List.mem_cons.mp hp with h1 | h2
      · rw [h1]
        have hPv : P (k, v) := by rw [← hk]; exact hm (k', v) (by simp)
        have hres := hf1 v hPv
        rwa [hk]
      · exact hm p (List.mem_cons_of_mem _ h2)
    · simp only [upsert, if_neg hk] at hp
      rcases List.mem_cons.mp hp with h1 | h2
      · rw [h1]
        exact hm (k', v) (by simp)
      · exact ih (fun p hp => hm p (List.mem_cons_of_mem _ hp)) p h2

/-- Transporting a filtered view through `map (·.2)` when every stored
record carries its own key. -/
theorem filter_map_snd {β : Type} (keyG : β → String) (k : String)
    (m : List (String × β)) (h : ∀ p ∈ m, keyG p.2 = p.1) :
    (m.map (·.2)).filter (fun r => keyG r == k)
      = (m.filter (fun p => p.1 == k)).map (·.2) := by
  induction m with
  | nil => simp
  | cons p rest ih =>
    have hv : keyG p.2 = p.1 := h p (by simp)
    have ih' := ih (fun q hq => h q (List.mem_cons_of_mem _ hq))
    by_cases hk : p.1 = k <;>
      simp [List.filter_cons, hv, hk, ih']

/-! ## Regional aggregator characterisation -/

theorem regC_regInit (e : RegionalPerformance) :
    regC (regInit e) = regEC e := rfl

theorem regC_regAdd (r : RegionGroup) (e : RegionalPerformance) :
    regC (regAdd r e) = regC r + regEC e := rfl

theorem fSum_regStep (m : List (String × RegionGroup)) (e : RegionalPerformance)
    (k : String) :
    fSum regC k (regStep m e)
      = fSum regC k m + (if regKey e = k then regEC e else 0) := by
  by_cases h : regKey e = k
  · rw [if_pos h, ← h]
    exact fSum_upsert_self regC (regKey e) (regUpd e) (regEC e)
      (regC_regInit e) (fun v => regC_regAdd v e) m
  · rw [if_neg h, add_zero]
    exact fSum_upsert_ne regC k (regKey e) h (regUpd e) m

theorem fSum_regFold (es : List RegionalPerformance) (k : String) :
    ∀ m, fSum regC k (es.foldl regStep m) = fSum regC k m + regContrib k es := by
  induction es with
  | nil => intro m; simp [regContrib]
  | cons e rest ih =>
    intro m
    rw [List.foldl_cons, ih, fSum_regStep]
    by_cases h : regKey e = k <;>
      simp [regContrib, List.filter_cons, h, add_assoc]

theorem regMapOf_flat (cs : List Campaign) :
    ∀ m, cs.foldl (fun m c => c.regional_performance.foldl regStep m) m
      = (regEntries cs).foldl regStep m := by
  induction cs with
  | nil => intro m; simp [regEntries]
  | cons c rest ih =>
    intro m
    rw [List.foldl_cons, ih]
    simp [regEntries, List.foldl_append]

theorem regFold_keyed (es : List RegionalPerformance) :
    ∀ m, (∀ p ∈ m, regKey p.2.toRegionalPerformance = p.1) →
      ∀ p ∈ es.foldl regStep m, regKey p.2.toRegionalPerformance = p.1 := by
  induction es with
  | nil => intro m hm; simpa using hm
  | cons e rest ih =>
    intro m hm
    rw [List.foldl_cons]
    refine ih _ (upsert_forall (regKey e) (regUpd e) m rfl ?_ hm)
    intro v hv
    simpa [regUpd, regAdd, regKey] using hv

theorem regMap_keyed (cs : List Campaign) :
    ∀ p ∈ regMapOf cs, regKey p.2.toRegionalPerformance = p.1 := by
  rw [regMapOf, regMapOf_flat cs []]
  exact regFold_keyed (regEntries cs) [] (by simp)

/-- The central regional characterisation: the summed base counters the
output exposes for key `k` are exactly the summed contributions of the
entries carrying key `k`. -/
theorem regAt_eq (cs : List Campaign) (k : String) :
    regAt k (regionalDataOf cs) = regContrib k (regEntries cs) := by
  rw [regAt, regionalDataOf, filter_map_snd _ k _ (regMap_keyed cs), List.map_map,
    show ((regMapOf cs).filter (fun p => p.1 == k)).map (regC ∘ (·.2))
        = ((regMapOf cs).filter (fun p => p.1 == k)).map (fun p => regC p.2) from rfl,
    ← fSum_eq_filterSum, regMapOf, regMapOf_flat cs [], fSum_regFold]
  simp [fSum]

/-! ## Generic fold-accumulation lemmas -/

theorem foldl_accum {σ α γ : Type} [AddCommMonoid γ] (step : σ → α → σ)
    (proj : σ → γ) (g : α → γ)
    (h : ∀ st a, proj (step st a) = proj st + g a) (es : List α) :
    ∀ st, proj (es.foldl step st) = proj st + (es.map g).sum := by
  induction es with
  | nil => intro st; simp
  | cons e rest ih =>
    intro st
    rw [List.foldl_cons, ih, h]
    simp [add_assoc]

theorem sum_map_ite {α γ : Type} [AddCommMonoid γ] (p : α → Bool) (v : α → γ)
    (l : List α) :
    (l.map (fun a => if p a then v a else 0)).sum = ((l.filter p).map v).sum := by
  induction l with
  | nil => simp
  | cons a rest ih => cases h : p a <;> simp [List.filter_cons, h, ih]

/-! ## Weekly aggregator characterisation -/

theorem fSum_weekStep (m : List (String × WeeklyPerformance))
    (w : WeeklyPerformance) (k : String) :
    fSum weekC k (weekStep m w)
      = fSum weekC k m + (if weekKey w = k then weekC w else 0) := by
  by_cases h : weekKey w = k
  · rw [if_pos h, ← h]
    exact fSum_upsert_self weekC (weekKey w) (weekUpd w) (weekC w)
      rfl (fun v => rfl) m
  · rw [if_neg h, add_zero]
    exact fSum_upsert_ne weekC k (weekKey w) h (weekUpd w) m

theorem fSum_weekFold (es : List WeeklyPerformance) (k : String) :
    ∀ m, fSum weekC k (es.foldl weekStep m) = fSum weekC k m + weekAt k es := by
  induction es with
  | nil => intro m; simp [weekAt]
  | cons w rest ih =>
    intro m
    rw [List.foldl_cons, ih, fSum_weekStep]
    by_cases h : weekKey w = k <;>
      simp [weekAt, List.filter_cons, h, add_assoc]

theorem weeklyMapOf_flat (cs : List Campaign) :
    ∀ m, cs.foldl (fun m c => c.weekly_performance.foldl weekStep m) m
      = (weekEntries cs).foldl weekStep m := by
  induction cs with
  | nil => intro m; simp [weekEntries]
  | cons c rest ih =>
    intro m
    rw [List.foldl_cons, ih]
    simp [weekEntries, List.foldl_append]

theorem weekFold_keyed (es : List WeeklyPerformance) :
    ∀ m, (∀ p ∈ m, weekKey p.2 = p.1) →
      ∀ p ∈ es.foldl weekStep m, weekKey p.2 = p.1 := by
  induction es with
  | nil => intro m hm; simpa using hm
  | cons w rest ih =>
    intro m hm
    rw [List.foldl_cons]
    refine ih _ (upsert_forall (weekKey w) (weekUpd w) m rfl ?_ hm)
    intro v hv
    simpa [weekUpd, weekAdd, weekKey] using hv

theorem weekMap_keyed (cs : List Campaign) :
    ∀ p ∈ weeklyMapOf cs, weekKey p.2 = p.1 := by
  rw [weeklyMapOf, weeklyMapOf_flat cs []]
  exact weekFold_keyed (weekEntries cs) [] (by simp)

/-- The central weekly characterisation: the summed base counters the sorted
output exposes for key `k` are exactly the summed contributions of the
weekly entries carrying key `k` (sorting only permutes the groups). -/
theorem weekAt_eq (cs : List Campaign) (k : String) :
    weekAt k (weeklyGroups cs) = weekAt k (weekEntries cs) := by
  have hperm := List.perm_insertionSort wle ((weeklyMapOf cs).map (·.2))
  have hsort : weekAt k (weeklyGroups cs)
      = weekAt k ((weeklyMapOf cs).map (·.2)) := by
    rw [weekAt, weekAt]
    exact List.Perm.sum_eq ((hperm.filter _).map _)
  rw [hsort, weekAt, filter_map_snd _ k _ (weekMap_keyed cs), List.map_map,
    show ((weeklyMapOf cs).filter (fun p => p.1 == k)).map (weekC ∘ (·.2))
        = ((weeklyMapOf cs).filter (fun p => p.1 == k)).map (fun p => weekC p.2) from rfl,
    ← fSum_eq_filterSum, weeklyMapOf, weeklyMapOf_flat cs [], fSum_weekFold]
  simp [fSum]

/-! ## Device aggregator characterisation -/

theorem devStep_rows (n : String) (acc : DevAcc) (d : DevicePerformance) :
    (devStep n acc d).rows = acc.rows ++ [deviceRow n d] := by
  by_cases h1 : d.device = "Mobile"
  · simp [devStep, h1]
  · by_cases h2 : d.device = "Desktop" <;> simp [devStep, h1, h2]

theorem devStep_mobile (n : String) (acc : DevAcc) (d : DevicePerformance) :
    (devStep n acc d).mobile
      = if d.device = "Mobile" then bumpBucket acc.mobile d else acc.mobile := by
  by_cases h1 : d.device = "Mobile"
  · simp [devStep, h1]
  · by_cases h2 : d.device = "Desktop" <;> simp [devStep, h1, h2]

theorem devStep_desktop (n : String) (acc : DevAcc) (d : DevicePerformance) :
    (devStep n acc d).desktop
      = if d.device = "Desktop" then bumpBucket acc.desktop d else acc.desktop := by
  by_cases h1 : d.device = "Mobile"
  · have h2 : ¬ d.device = "Desktop" := by rw [h1]; decide
    simp [devStep, h1, h2]
  · by_cases h2 : d.device = "Desktop" <;> simp [devStep, h1, h2]

theorem devAccOf_flat (cs : List Campaign) :
    devAccOf cs = (devEntries cs).foldl devEStep ⟨emptyBucket, emptyBucket, []⟩ := by
  rw [devAccOf]
  suffices h : ∀ acc, cs.foldl
      (fun acc c => c.device_performance.foldl (devStep c.name) acc) acc
      = (devEntries cs).foldl devEStep acc by exact h _
  induction cs with
  | nil => intro acc; simp [devEntries]
  | cons c rest ih =>
    intro acc
    rw [List.foldl_cons, ih]
    simp [devEntries, List.foldl_append, List.foldl_map, devEStep]

theorem devFold_rows (es : List (String × DevicePerformance)) :
    ∀ acc, (es.foldl devEStep acc).rows
      = acc.rows ++ es.map (fun p => deviceRow p.1 p.2) := by
  induction es with
  | nil => intro acc; simp
  | cons e rest ih =>
    intro acc
    rw [List.foldl_cons, ih]
    simp [devEStep, devStep_rows]

theorem devFold_mobile (es : List (String × DevicePerformance)) :
    ∀ acc, (es.foldl devEStep acc).mobile
      = (es.filter (fun p => p.2.device == "Mobile")).foldl
          (fun b p => bumpBucket b p.2) acc.mobile := by
  induction es with
  | nil => intro acc; simp
  | cons e rest ih =>
    intro acc
    rw [List.foldl_cons, ih, List.filter_cons]
    by_cases h : e.2.device = "Mobile" <;> simp [h, devEStep, devStep_mobile]

theorem devFold_desktop (es : List (String × DevicePerformance)) :
    ∀ acc, (es.foldl devEStep acc).desktop
      = (es.filter (fun p => p.2.device == "Desktop")).foldl
          (fun b p => bumpBucket b p.2) acc.desktop := by
  induction es with
  | nil => intro acc; simp
  | cons e rest ih =>
    intro acc
    rw [List.foldl_cons, ih, List.filter_cons]
    by_cases h : e.2.device = "Desktop" <;> simp [h, devEStep, devStep_desktop]

theorem devC_bump (b : DeviceBucket) (d : DevicePerformance) :
    devC (bumpBucket b d) = devC b + devEC d := rfl

theorem devC_finalize (b : DeviceBucket) (s : ℚ) :
    devC (finalizeBucket b s) = devC b := rfl

theorem devC_empty : devC emptyBucket = (0 : Q5) := rfl

theorem bumpFold_devC (es : List (String × DevicePerformance)) :
    ∀ b, devC (es.foldl (fun b p => bumpBucket b p.2) b)
      = devC b + (es.map (fun p => devEC p.2)).sum :=
  foldl_accum (fun b p => bumpBucket b p.2) devC (fun p => devEC p.2)
    (fun st a => devC_bump st a.2) es

/-- The mobile bucket's base counters are the summed `"Mobile"` contributions. -/
theorem mobile_char (cs : List Campaign) :
    devC ((deviceMetrics (some cs)).mobile) = devContrib "Mobile" cs := by
  simp only [deviceMetrics]
  rw [devC_finalize, devAccOf_flat, devFold_mobile, bumpFold_devC, devC_empty,
    zero_add, devContrib]

/-- The desktop bucket's base counters are the summed `"Desktop"` contributions. -/
theorem desktop_char (cs : List Campaign) :
    devC ((deviceMetrics (some cs)).desktop) = devContrib "Desktop" cs := by
  simp only [deviceMetrics]
  rw [devC_finalize, devAccOf_flat, devFold_desktop, bumpFold_devC, devC_empty,
    zero_add, devContrib]

/-- The flat row list is one `deviceRow` per device entry, in input order. -/
theorem rows_char (cs : List Campaign) :
    (deviceMetrics (some cs)).performanceByCampaign
      = cs.flatMap (fun c => c.device_performance.map (deviceRow c.name)) := by
  simp only [deviceMetrics]
  rw [devAccOf_flat, devFold_rows]
  simp only [devEntries, List.map_flatMap, List.map_map, List.nil_append]
  rfl

theorem filter_map_pair {α : Type} (n : String) (q : α → Bool) (l : List α) :
    (l.filter q).map (fun d => (n, d))
      = (l.map (fun d => (n, d))).filter (fun p => q p.2) := by
  induction l with
  | nil => simp
  | cons a rest ih => cases h : q a <;> simp [List.filter_cons, h, ih]

theorem devEntries_cons (c : Campaign) (rest : List Campaign) :
    devEntries (c :: rest)
      = c.device_performance.map (fun d => (c.name, d)) ++ devEntries rest := by
  simp [devEntries]

theorem devEntries_drop (cs : List Campaign) :
    devEntries (cs.map dropUnknownDevices)
      = (devEntries cs).filter
          (fun p => p.2.device == "Mobile" || p.2.device == "Desktop") := by
  induction cs with
  | nil => simp [devEntries]
  | cons c rest ih =>
    rw [List.map_cons, devEntries_cons, devEntries_cons, List.filter_append, ih]
    congr 1
    rw [show (dropUnknownDevices c).name = c.name from rfl,
      show (dropUnknownDevices c).device_performance
        = c.device_performance.filter
            (fun d => d.device == "Mobile" || d.device == "Desktop") from rfl,
      filter_map_pair]

theorem mobile_acc_drop (cs : List Campaign) :
    (devAccOf (cs.map dropUnknownDevices)).mobile = (devAccOf cs).mobile := by
  rw [devAccOf_flat, devAccOf_flat, devFold_mobile, devFold_mobile,
    devEntries_drop, List.filter_filter]
  congr 1
  apply List.filter_congr
  intro p _
  cases h : p.2.device == "Mobile" <;> simp [h]

theorem desktop_acc_drop (cs : List Campaign) :
    (devAccOf (cs.map dropUnknownDevices)).desktop = (devAccOf cs).desktop := by
  rw [devAccOf_flat, devAccOf_flat, devFold_desktop, devFold_desktop,
    devEntries_drop, List.filter_filter]
  congr 1
  apply List.filter_congr
  intro p _
  cases h : p.2.device == "Desktop" <;> simp [h]

/-! ## Demographic aggregator characterisation -/

theorem lowerIs_male_not_female (s : String) (h : lowerIs s "male" = true) :
    lowerIs s "female" = false := by
  simp only [lowerIs, beq_iff_eq] at h ⊢
  rw [h]
  decide

theorem demoAccOf_flat (cs : List Campaign) :
    demoAccOf cs = (demoEntries cs).foldl demoEStep demoInit := by
  rw [demoAccOf]
  suffices h : ∀ st, cs.foldl
      (fun st c => c.demographic_breakdown.foldl (demoStep c.spend c.revenue) st) st
      = (demoEntries cs).foldl demoEStep st by exact h _
  induction cs with
  | nil => intro st; simp [demoEntries]
  | cons c rest ih =>
    intro st
    rw [List.foldl_cons, ih]
    simp [demoEntries, List.foldl_append, List.foldl_map, demoEStep]

theorem demoStep_maleClicks (s r : ℚ) (st : DemoAcc) (b : DemographicBreakdown) :
    (demoStep s r st b).maleClicks
      = st.maleClicks
        + (if lowerIs b.gender "male" then b.performance.clicks else 0) := by
  cases hm : lowerIs b.gender "male"
  · cases hf : lowerIs b.gender "female" <;> simp [demoStep, hm, hf]
  · simp [demoStep, hm]

theorem demoStep_maleSpend (s r : ℚ) (st : DemoAcc) (b : DemographicBreakdown) :
    (demoStep s r st b).maleSpend
      = st.maleSpend
        + (if lowerIs b.gender "male" then allocSpend (s, r, b) else 0) := by
  cases hm : lowerIs b.gender "male"
  · cases hf : lowerIs b.gender "female" <;> simp [demoStep, hm, hf]
  · simp [demoStep, hm, allocSpend]

theorem demoStep_maleRevenue (s r : ℚ) (st : DemoAcc) (b : DemographicBreakdown) :
    (demoStep s r st b).maleRevenue
      = st.maleRevenue
        + (if lowerIs b.gender "male" then allocRevenue (s, r, b) else 0) := by
  cases hm : lowerIs b.gender "male"
  · cases hf : lowerIs b.gender "female" <;> simp [demoStep, hm, hf]
  · simp [demoStep, hm, allocRevenue]

theorem demoStep_femaleClicks (s r : ℚ) (st : DemoAcc) (b : DemographicBreakdown) :
    (demoStep s r st b).femaleClicks
      = st.femaleClicks
        + (if lowerIs b.gender "female" then b.performance.clicks else 0) := by
  cases hm : lowerIs b.gender "male"
  · cases hf : lowerIs b.gender "female" <;> simp [demoStep, hm, hf]
  · simp [demoStep, hm, lowerIs_male_not_female b.gender hm]

theorem demoStep_femaleSpend (s r : ℚ) (st : DemoAcc) (b : DemographicBreakdown) :
    (demoStep s r st b).femaleSpend
      = st.femaleSpend
        + (if lowerIs b.gender "female" then allocSpend (s, r, b) else 0) := by
  cases hm : lowerIs b.gender "male"
  · cases hf : lowerIs b.gender "female" <;> simp [demoStep, hm, hf, allocSpend]
  · simp [demoStep, hm, lowerIs_male_not_female b.gender hm]

theorem demoStep_femaleRevenue (s r : ℚ) (st : DemoAcc) (b : DemographicBreakdown) :
    (demoStep s r st b).femaleRevenue
      = st.femaleRevenue
        + (if lowerIs b.gender "female" then allocRevenue (s, r, b) else 0) := by
  cases hm : lowerIs b.gender "male"
  · cases hf : lowerIs b.gender "female" <;> simp [demoStep, hm, hf, allocRevenue]
  · simp [demoStep, hm, lowerIs_male_not_female b.gender hm]

theorem demoStep_ageSpendMap (s r : ℚ) (st : DemoAcc) (b : DemographicBreakdown) :
    (demoStep s r st b).ageSpendMap
      = upsert b.age_group (addAlloc (s * (b.percentage_of_audience / 100)))
          (upsert b.age_group initZero st.ageSpendMap) := by
  cases hm : lowerIs b.gender "male"
  · cases hf : lowerIs b.gender "female" <;> simp [demoStep, hm, hf]
  · simp [demoStep, hm]

theorem demoStep_ageRevMap (s r : ℚ) (st : DemoAcc) (b : DemographicBreakdown) :
    (demoStep s r st b).ageRevMap
      = upsert b.age_group (addAlloc (r * (b.percentage_of_audience / 100)))
          (upsert b.age_group initZero st.ageRevMap) := by
  cases hm : lowerIs b.gender "male"
  · cases hf : lowerIs b.gender "female" <;> simp [demoStep, hm, hf]
  · simp [demoStep, hm]

theorem demoStep_maleMap (s r : ℚ) (st : DemoAcc) (b : DemographicBreakdown) :
    (demoStep s r st b).maleMap
      = if lowerIs b.gender "male" then
          upsert b.age_group (addAge b.performance) st.maleMap
        else st.maleMap := by
  cases hm : lowerIs b.gender "male"
  · cases hf : lowerIs b.gender "female" <;> simp [demoStep, hm, hf]
  · simp [demoStep, hm]

theorem demoStep_femaleMap (s r : ℚ) (st : DemoAcc) (b : DemographicBreakdown) :
    (demoStep s r st b).femaleMap
      = if lowerIs b.gender "female" then
          upsert b.age_group (addAge b.performance) st.femaleMap
        else st.femaleMap := by
  cases hm : lowerIs b.gender "male"
  · cases hf : lowerIs b.gender "female" <;> simp [demoStep, hm, hf]
  · simp [demoStep, hm, lowerIs_male_not_female b.gender hm]

theorem fSum_alloc_upserts (k' : String) (a : ℚ) (k : String)
    (M : List (String × ℚ)) :
    fSum id k (upsert k' (addAlloc a) (upsert k' initZero M))
      = fSum id k M + (if k' = k then a else 0) := by
  by_cases h : k' = k
  · rw [if_pos h, ← h,
      fSum_upsert_self id k' (addAlloc a) a (zero_add a) (fun v => rfl),
      fSum_upsert_self id k' initZero 0 rfl (fun v => (add_zero v).symm),
      add_zero]
  · rw [if_neg h, add_zero, fSum_upsert_ne id k k' h, fSum_upsert_ne id k k' h]

theorem ageC_addAge_none (p : DemoPerformance) :
    ageC (addAge p none) = demoPC p := by
  simp [addAge, addPerf, zeroAgeData, ageC, demoPC]

theorem ageC_addAge_some (p : DemoPerformance) (v : AgeData) :
    ageC (addAge p (some v)) = ageC v + demoPC p := rfl

theorem fSum_age_upsert (k' : String) (p : DemoPerformance) (k : String)
    (M : List (String × AgeData)) :
    fSum ageC k (upsert k' (addAge p) M)
      = fSum ageC k M + (if k' = k then demoPC p else 0) := by
  by_cases h : k' = k
  · rw [if_pos h, ← h]
    exact fSum_upsert_self ageC k' (addAge p) (demoPC p)
      (ageC_addAge_none p) (fun v => ageC_addAge_some p v) M
  · rw [if_neg h, add_zero]
    exact fSum_upsert_ne ageC k k' h _ M

theorem demoStep_fSum_ageSpend (s r : ℚ) (st : DemoAcc)
    (b : DemographicBreakdown) (k : String) :
    fSum id k (demoStep s r st b).ageSpendMap
      = fSum id k st.ageSpendMap
        + (if b.age_group == k then allocSpend (s, r, b) else 0) := by
  rw [demoStep_ageSpendMap, fSum_alloc_upserts]
  by_cases h : b.age_group = k <;> simp [h, allocSpend]

theorem demoStep_fSum_ageRev (s r : ℚ) (st : DemoAcc)
    (b : DemographicBreakdown) (k : String) :
    fSum id k (demoStep s r st b).ageRevMap
      = fSum id k st.ageRevMap
        + (if b.age_group == k then allocRevenue (s, r, b) else 0) := by
  rw [demoStep_ageRevMap, fSum_alloc_upserts]
  by_cases h : b.age_group = k <;> simp [h, allocRevenue]

theorem demoStep_fSum_maleMap (s r : ℚ) (st : DemoAcc)
    (b : DemographicBreakdown) (k : String) :
    fSum ageC k (demoStep s r st b).maleMap
      = fSum ageC k st.maleMap
        + (if lowerIs b.gender "male" && (b.age_group == k) then
            demoPC b.performance else 0) := by
  rw [demoStep_maleMap]
  cases hm : lowerIs b.gender "male"
  · rw [if_neg (by simp)]
    simp
  · rw [if_pos rfl, fSum_age_upsert]
    by_cases hk : b.age_group = k <;> simp [hk]

theorem demoStep_fSum_femaleMap (s r : ℚ) (st : DemoAcc)
    (b : DemographicBreakdown) (k : String) :
    fSum ageC k (demoStep s r st b).femaleMap
      = fSum ageC k st.femaleMap
        + (if lowerIs b.gender "female" && (b.age_group == k) then
            demoPC b.performance else 0) := by
  rw [demoStep_femaleMap]
  cases hf : lowerIs b.gender "female"
  · rw [if_neg (by simp)]
    simp
  · rw [if_pos rfl, fSum_age_upsert]
    by_cases hk : b.age_group = k <;> simp [hk]

theorem chartAt_map (k col : String) (m : List (String × ℚ)) :
    chartAt k (m.map (fun p => ⟨p.1, p.2, col⟩)) = fSum id k m := by
  induction m with
  | nil => simp [chartAt, fSum]
  | cons p rest ih =>
    by_cases h : p.1 = k <;>
      simp [chartAt, fSum, List.filter_cons, h, ih] <;>
      simpa [chartAt] using ih

theorem ageRowAt_ageRows (k : String) (m : List (String × AgeData)) :
    ageRowAt k (ageRows m) = fSum ageC k m := by
  induction m with
  | nil => simp [ageRowAt, ageRows, fSum]
  | cons p rest ih =>
    by_cases h : p.1 = k <;>
      simp [ageRowAt, ageRows, fSum, List.filter_cons, h, ageC] <;>
      simpa [ageRowAt, ageRows] using ih

/-- Gender clicks: the pass accumulates exactly the spec's sum. -/
theorem maleClicks_char (cs : List Campaign) :
    (demographicMetrics (some cs)).maleClicks = genderClicks "male" cs := by
  simp only [demographicMetrics]
  rw [demoAccOf_flat,
    foldl_accum demoEStep (fun st => st.maleClicks)
      (fun e => if lowerIs e.2.2.gender "male" then e.2.2.performance.clicks else 0)
      (fun st e => demoStep_maleClicks e.1 e.2.1 st e.2.2) (demoEntries cs) demoInit]
  simp only [demoInit, zero_add, genderClicks, genderEntries]
  exact sum_map_ite _ _ _

theorem maleSpend_char (cs : List Campaign) :
    (demographicMetrics (some cs)).maleSpend = genderSpend "male" cs := by
  simp only [demographicMetrics]
  rw [demoAccOf_flat,
    foldl_accum demoEStep (fun st => st.maleSpend)
      (fun e => if lowerIs e.2.2.gender "male" then allocSpend e else 0)
      (fun st e => demoStep_maleSpend e.1 e.2.1 st e.2.2) (demoEntries cs) demoInit,
    sum_map_ite (fun e => lowerIs e.2.2.gender "male") allocSpend]
  simp [demoInit, genderSpend, genderEntries]

theorem maleRevenue_char (cs : List Campaign) :
    (demographicMetrics (some cs)).maleRevenue = genderRevenue "male" cs := by
  simp only [demographicMetrics]
  rw [demoAccOf_flat,
    foldl_accum demoEStep (fun st => st.maleRevenue)
      (fun e => if lowerIs e.2.2.gender "male" then allocRevenue e else 0)
      (fun st e => demoStep_maleRevenue e.1 e.2.1 st e.2.2) (demoEntries cs) demoInit,
    sum_map_ite (fun e => lowerIs e.2.2.gender "male") allocRevenue]
  simp [demoInit, genderRevenue, genderEntries]

theorem femaleClicks_char (cs : List Campaign) :
    (demographicMetrics (some cs)).femaleClicks = genderClicks "female" cs := by
  simp only [demographicMetrics]
  rw [demoAccOf_flat,
    foldl_accum demoEStep (fun st => st.femaleClicks)
      (fun e => if lowerIs e.2.2.gender "female" then e.2.2.performance.clicks else 0)
      (fun st e => demoStep_femaleClicks e.1 e.2.1 st e.2.2) (demoEntries cs) demoInit]
  simp only [demoInit, zero_add, genderClicks, genderEntries]
  exact sum_map_ite _ _ _

theorem femaleSpend_char (cs : List Campaign) :
    (demographicMetrics (some cs)).femaleSpend = genderSpend "female" cs := by
  simp only [demographicMetrics]
  rw [demoAccOf_flat,
    foldl_accum demoEStep (fun st => st.femaleSpend)
      (fun e => if lowerIs e.2.2.gender "female" then allocSpend e else 0)
      (fun st e => demoStep_femaleSpend e.1 e.2.1 st e.2.2) (demoEntries cs) demoInit,
    sum_map_ite (fun e => lowerIs e.2.2.gender "female") allocSpend]
  simp [demoInit, genderSpend, genderEntries]

theorem femaleRevenue_char (cs : List Campaign) :
    (demographicMetrics (some cs)).femaleRevenue = genderRevenue "female" cs := by
  simp only [demographicMetrics]
  rw [demoAccOf_flat,
    foldl_accum demoEStep (fun st => st.femaleRevenue)
      (fun e => if lowerIs e.2.2.gender "female" then allocRevenue e else 0)
      (fun st e => demoStep_femaleRevenue e.1 e.2.1 st e.2.2) (demoEntries cs) demoInit,
    sum_map_ite (fun e => lowerIs e.2.2.gender "female") allocRevenue]
  simp [demoInit, genderRevenue, genderEntries]

/-- Cross-gender allocated spend per age group. -/
theorem ageSpend_char (cs : List Campaign) (k : String) :
    chartAt k ((demographicMetrics (some cs)).ageGroupSpend)
      = (((demoEntries cs).filter (fun e => e.2.2.age_group == k)).map
          allocSpend).sum := by
  simp only [demographicMetrics]
  rw [chartAt_map, demoAccOf_flat,
    foldl_accum demoEStep (fun st => fSum id k st.ageSpendMap)
      (fun e => if e.2.2.age_group == k then allocSpend e else 0)
      (fun st e => demoStep_fSum_ageSpend e.1 e.2.1 st e.2.2 k)
      (demoEntries cs) demoInit,
    sum_map_ite (fun e => e.2.2.age_group == k) allocSpend]
  simp [demoInit, fSum]

/-- Cross-gender allocated revenue per age group. -/
theorem ageRev_char (cs : List Campaign) (k : String) :
    chartAt k ((demographicMetrics (some cs)).ageGroupRevenue)
      = (((demoEntries cs).filter (fun e => e.2.2.age_group == k)).map
          allocRevenue).sum := by
  simp only [demographicMetrics]
  rw [chartAt_map, demoAccOf_flat,
    foldl_accum demoEStep (fun st => fSum id k st.ageRevMap)
      (fun e => if e.2.2.age_group == k then allocRevenue e else 0)
      (fun st e => demoStep_fSum_ageRev e.1 e.2.1 st e.2.2 k)
      (demoEntries cs) demoInit,
    sum_map_ite (fun e => e.2.2.age_group == k) allocRevenue]
  simp [demoInit, fSum]

/-- Male age-group rows: raw counters summed over matching entries. -/
theorem maleAge_char (cs : List Campaign) (k : String) :
    ageRowAt k ((demographicMetrics (some cs)).maleAgeGroups)
      = (((demoEntries cs).filter
          (fun e => lowerIs e.2.2.gender "male" && (e.2.2.age_group == k))).map
            (fun e => demoPC e.2.2.performance)).sum := by
  simp only [demographicMetrics]
  rw [ageRowAt_ageRows, demoAccOf_flat,
    foldl_accum demoEStep (fun st => fSum ageC k st.maleMap)
      (fun e => if lowerIs e.2.2.gender "male" && (e.2.2.age_group == k) then
        demoPC e.2.2.performance else 0)
      (fun st e => demoStep_fSum_maleMap e.1 e.2.1 st e.2.2 k)
      (demoEntries cs) demoInit]
  simp only [demoInit, fSum, zero_add]
  exact sum_map_ite _ _ _

/-- Female age-group rows: raw counters summed over matching entries. -/
theorem femaleAge_char (cs : List Campaign) (k : String) :
    ageRowAt k ((demographicMetrics (some cs)).femaleAgeGroups)
      = (((demoEntries cs).filter
          (fun e => lowerIs e.2.2.gender "female" && (e.2.2.age_group == k))).map
            (fun e => demoPC e.2.2.performance)).sum := by
  simp only [demographicMetrics]
  rw [ageRowAt_ageRows, demoAccOf_flat,
    foldl_accum demoEStep (fun st => fSum ageC k st.femaleMap)
      (fun e => if lowerIs e.2.2.gender "female" && (e.2.2.age_group == k) then
        demoPC e.2.2.performance else 0)
      (fun st e => demoStep_fSum_femaleMap e.1 e.2.1 st e.2.2 k)
      (demoEntries cs) demoInit]
  simp only [demoInit, fSum, zero_add]
  exact sum_map_ite _ _ _

/-! ## Top-region fold characterisation -/

theorem topStep_some (t cur : RegionGroup) :
    ∃ u, topStep (some t) cur = some u := by
  unfold topStep
  by_cases h : bestRev (some t) < cur.revenue <;> simp [h]

theorem topFold_some (L : List RegionGroup) :
    ∀ t, ∃ u, L.foldl topStep (some t) = some u := by
  induction L with
  | nil => intro t; exact ⟨t, rfl⟩
  | cons a L ih =>
    intro t
    rw [List.foldl_cons]
    obtain ⟨u, hu⟩ := topStep_some t a
    rw [hu]
    exact ih u

theorem topFold_none_iff (L : List RegionGroup) :
    L.foldl topStep none = none ↔ ∀ g ∈ L, ¬ (0 < g.revenue) := by
  induction L with
  | nil => simp
  | cons a L ih =>
    rw [List.foldl_cons]
    by_cases h : (0 : ℚ) < a.revenue
    · rw [show topStep none a = some a from by simp [topStep, bestRev, h]]
      obtain ⟨u, hu⟩ := topFold_some L a
      rw [hu]
      simp [h]
    · rw [show topStep none a = none from by simp [topStep, bestRev, h], ih]
      simp [h]
      exact fun _ => not_lt.mp h

theorem topFold_char (L : List RegionGroup) :
    ∀ acc, (L.foldl topStep acc = acc ∧ ∀ g ∈ L, g.revenue ≤ bestRev acc) ∨
      (∃ i t, L[i]? = some t ∧ L.foldl topStep acc = some t
        ∧ bestRev acc < t.revenue
        ∧ (∀ (j : ℕ) (g : RegionGroup), j < i → L[j]? = some g
            → g.revenue < t.revenue)
        ∧ (∀ g ∈ L, g.revenue ≤ t.revenue)) := by
  induction L with
  | nil => intro acc; left; exact ⟨rfl, by simp⟩
  | cons a L ih =>
    intro acc
    rw [List.foldl_cons]
    by_cases h : bestRev acc < a.revenue
    · rw [show topStep acc a = some a from by simp [topStep, h]]
      rcases ih (some a) with ⟨heq, hub⟩ | ⟨i, t, hget, hfold, hlt, hpre, hub⟩
      · right
        refine ⟨0, a, by simp, heq, h, ?_, ?_⟩
        · intro j g hj _
          exact absurd hj (Nat.not_lt_zero j)
        · intro g hg
          rcases List.mem_cons.mp hg with hga | hg'
          · rw [hga]
          · exact hub g hg'
      · right
        refine ⟨i + 1, t, by simpa using hget, hfold, lt_trans h hlt, ?_, ?_⟩
        · intro j g hj hget'
          cases j with
          | zero =>
            have hga : a = g := by simpa using hget'
            rw [← hga]
            exact hlt
          | succ j' =>
            exact hpre j' g (by omega) (by simpa using hget')
        · intro g hg
          rcases List.mem_cons.mp hg with hga | hg'
          · rw [hga]; exact le_of_lt hlt
          · exact hub g hg'
    · rw [show topStep acc a = acc from by simp [topStep, h]]
      rcases ih acc with ⟨heq, hub⟩ | ⟨i, t, hget, hfold, hlt, hpre, hub⟩
      · left
        refine ⟨heq, ?_⟩
        intro g hg
        rcases List.mem_cons.mp hg with hga | hg'
        · rw [hga]; exact not_lt.mp h
        · exact hub g hg'
      · right
        refine ⟨i + 1, t, by simpa using hget, hfold, hlt, ?_, ?_⟩
        · intro j g hj hget'
          cases j with
          | zero =>
            have hga : a = g := by simpa using hget'
            rw [← hga]
            exact lt_of_le_of_lt (not_lt.mp h) hlt
          | succ j' =>
            exact hpre j' g (by omega) (by simpa using hget')
        · intro g hg
          rcases List.mem_cons.mp hg with hga | hg'
          · rw [hga]; exact le_of_lt (lt_of_le_of_lt (not_lt.mp h) hlt)
          · exact hub g hg'

/-! ## The singleton-group derived-metric invariant -/

theorem derivedEqs_regAdd (r : RegionGroup) (e : RegionalPerformance) :
    derivedEqs (regAdd r e) :=
  ⟨rfl, rfl, rfl, rfl, rfl⟩

theorem regFold_derived (es : List RegionalPerformance) :
    ∀ m, (∀ p ∈ m, 2 ≤ p.2.campaignCount → derivedEqs p.2) →
      ∀ p ∈ es.foldl regStep m, 2 ≤ p.2.campaignCount → derivedEqs p.2 := by
  induction es with
  | nil => intro m hm; simpa using hm
  | cons e rest ih =>
    intro m hm
    rw [List.foldl_cons]
    refine ih _ (upsert_forall (regKey e) (regUpd e) m ?_ ?_ hm)
    · intro h
      simp [regUpd, regInit] at h
    · intro v _ _
      exact derivedEqs_regAdd v e

theorem regionalData_derived (cs : List Campaign) :
    ∀ g ∈ regionalDataOf cs, 2 ≤ g.campaignCount → derivedEqs g := by
  intro g hg
  rw [regionalDataOf] at hg
  obtain ⟨p, hp, hpg⟩ := List.mem_map.mp hg
  rw [regMapOf, regMapOf_flat cs []] at hp
  rw [← hpg]
  exact regFold_derived (regEntries cs) [] (by simp) p hp

/-! ## Aggregator output projections and append splitting -/

theorem regionalMetrics_data (cs : List Campaign) :
    (regionalMetrics (some cs)).regionalData = regionalDataOf cs := rfl

theorem regionalMetrics_top (cs : List Campaign) :
    (regionalMetrics (some cs)).topRegion
      = (regionalDataOf cs).foldl topStep none := rfl

theorem weeklyMetrics_data (cs : List Campaign) :
    (weeklyMetrics (some cs)).weeklyData = some (weeklyGroups cs) := rfl

theorem regContrib_append (k : String) (es1 es2 : List RegionalPerformance) :
    regContrib k (es1 ++ es2) = regContrib k es1 + regContrib k es2 := by
  simp [regContrib, List.filter_append, List.sum_append]

theorem weekAt_append (k : String) (es1 es2 : List WeeklyPerformance) :
    weekAt k (es1 ++ es2) = weekAt k es1 + weekAt k es2 := by
  simp [weekAt, List.filter_append, List.sum_append]

theorem filterMapSum_append {α γ : Type} [AddCommMonoid γ] (p : α → Bool)
    (v : α → γ) (l1 l2 : List α) :
    (((l1 ++ l2).filter p).map v).sum
      = ((l1.filter p).map v).sum + ((l2.filter p).map v).sum := by
  simp [List.filter_append, List.sum_append]

theorem regEntries_pair (A B : Campaign) :
    regEntries [A, B] = regEntries [A] ++ regEntries [B] := by
  simp [regEntries]

theorem weekEntries_pair (A B : Campaign) :
    weekEntries [A, B] = weekEntries [A] ++ weekEntries [B] := by
  simp [weekEntries]

theorem devEntries_pair (A B : Campaign) :
    devEntries [A, B] = devEntries [A] ++ devEntries [B] := by
  simp [devEntries]

theorem demoEntries_pair (A B : Campaign) :
    demoEntries [A, B] = demoEntries [A] ++ demoEntries [B] := by
  simp [demoEntries]

/-! ## The claims -/

/-- Claim C3: for each dimension aggregator (regional, weekly, device,
demographic) and any two campaigns `A` and `B`, the per-group base counters
obtained by aggregating `[A, B]` equal, group key by group key, the
elementwise sum of the counters obtained by aggregating `[A]` alone and
`[B]` alone. -/
theorem claim_C3_additivity (A B : Campaign) (k : String) :
    (regAt k ((regionalMetrics (some [A, B])).regionalData)
        = regAt k ((regionalMetrics (some [A])).regionalData)
          + regAt k ((regionalMetrics (some [B])).regionalData))
    ∧ (weekAt k (((weeklyMetrics (some [A, B])).weeklyData).getD [])
        = weekAt k (((weeklyMetrics (some [A])).weeklyData).getD [])
          + weekAt k (((weeklyMetrics (some [B])).weeklyData).getD []))
    ∧ (devC ((deviceMetrics (some [A, B])).mobile)
        = devC ((deviceMetrics (some [A])).mobile)
          + devC ((deviceMetrics (some [B])).mobile))
    ∧ (devC ((deviceMetrics (some [A, B])).desktop)
        = devC ((deviceMetrics (some [A])).desktop)
          + devC ((deviceMetrics (some [B])).desktop))
    ∧ ((demographicMetrics (some [A, B])).maleClicks
        = (demographicMetrics (some [A])).maleClicks
          + (demographicMetrics (some [B])).maleClicks)
    ∧ ((demographicMetrics (some [A, B])).maleSpend
        = (demographicMetrics (some [A])).maleSpend
          + (demographicMetrics (some [B])).maleSpend)
    ∧ ((demographicMetrics (some [A, B])).maleRevenue
        = (demographicMetrics (some [A])).maleRevenue
          + (demographicMetrics (some [B])).maleRevenue)
    ∧ ((demographicMetrics (some [A, B])).femaleClicks
        = (demographicMetrics (some [A])).femaleClicks
          + (demographicMetrics (some [B])).femaleClicks)
    ∧ ((demographicMetrics (some [A, B])).femaleSpend
        = (demographicMetrics (some [A])).femaleSpend
          + (demographicMetrics (some [B])).femaleSpend)
    ∧ ((demographicMetrics (some [A, B])).femaleRevenue
        = (demographicMetrics (some [A])).femaleRevenue
          + (demographicMetrics (some [B])).femaleRevenue)
    ∧ (chartAt k ((demographicMetrics (some [A, B])).ageGroupSpend)
        = chartAt k ((demographicMetrics (some [A])).ageGroupSpend)
          + chartAt k ((demographicMetrics (some [B])).ageGroupSpend))
    ∧ (chartAt k ((demographicMetrics (some [A, B])).ageGroupRevenue)
        = chartAt k ((demographicMetrics (some [A])).ageGroupRevenue)
          + chartAt k ((demographicMetrics (some [B])).ageGroupRevenue))
    ∧ (ageRowAt k ((demographicMetrics (some [A, B])).maleAgeGroups)
        = ageRowAt k ((demographicMetrics (some [A])).maleAgeGroups)
          + ageRowAt k ((demographicMetrics (some [B])).maleAgeGroups))
    ∧ (ageRowAt k ((demographicMetrics (some [A, B])).femaleAgeGroups)
        = ageRowAt k ((demographicMetrics (some [A])).femaleAgeGroups)
          + ageRowAt k ((demographicMetrics (some [B])).femaleAgeGroups)) := by
  refine ⟨?_, ?_, ?_, ?_, ?_, ?_, ?_, ?_, ?_, ?_, ?_, ?_, ?_, ?_⟩
  · rw [regionalMetrics_data, regionalMetrics_data, regionalMetrics_data,
      regAt_eq, regAt_eq, regAt_eq, regEntries_pair, regContrib_append]
  · rw [weeklyMetrics_data, weeklyMetrics_data, weeklyMetrics_data]
    simp only [Option.getD_some]
    rw [weekAt_eq, weekAt_eq, weekAt_eq, weekEntries_pair, weekAt_append]
  · rw [mobile_char, mobile_char, mobile_char]
    simp only [devContrib]
    rw [devEntries_pair, filterMapSum_append]
  · rw [desktop_char, desktop_char, desktop_char]
    simp only [devContrib]
    rw [devEntries_pair, filterMapSum_append]
  · rw [maleClicks_char, maleClicks_char, maleClicks_char]
    simp only [genderClicks, genderEntries]
    rw [demoEntries_pair, filterMapSum_append]
  · rw [maleSpend_char, maleSpend_char, maleSpend_char]
    simp only [genderSpend, genderEntries]
    rw [demoEntries_pair, filterMapSum_append]
  · rw [maleRevenue_char, maleRevenue_char, maleRevenue_char]
    simp only [genderRevenue, genderEntries]
    rw [demoEntries_pair, filterMapSum_append]
  · rw [femaleClicks_char, femaleClicks_char, femaleClicks_char]
    simp only [genderClicks, genderEntries]
    rw [demoEntries_pair, filterMapSum_append]
  · rw [femaleSpend_char, femaleSpend_char, femaleSpend_char]
    simp only [genderSpend, genderEntries]
    rw [demoEntries_pair, filterMapSum_append]
  · rw [femaleRevenue_char, femaleRevenue_char, femaleRevenue_char]
    simp only [genderRevenue, genderEntries]
    rw [demoEntries_pair, filterMapSum_append]
  · rw [ageSpend_char, ageSpend_char, ageSpend_char, demoEntries_pair,
      filterMapSum_append]
  · rw [ageRev_char, ageRev_char, ageRev_char, demoEntries_pair,
      filterMapSum_append]
  · rw [maleAge_char, maleAge_char, maleAge_char, demoEntries_pair,
      filterMapSum_append]
  · rw [femaleAge_char, femaleAge_char, femaleAge_char, demoEntries_pair,
      filterMapSum_append]

/-- Claim C8: the demographic gender totals match the gender field
case-insensitively against `"male"` and `"female"` (any other value feeds
neither total); each matching entry adds its raw `performance.clicks`
unscaled and adds campaign spend and revenue scaled by
`percentage_of_audience / 100`. -/
theorem claim_C8_gender_totals (cs : List Campaign) :
    (demographicMetrics (some cs)).maleClicks = genderClicks "male" cs
    ∧ (demographicMetrics (some cs)).maleSpend = genderSpend "male" cs
    ∧ (demographicMetrics (some cs)).maleRevenue = genderRevenue "male" cs
    ∧ (demographicMetrics (some cs)).femaleClicks = genderClicks "female" cs
    ∧ (demographicMetrics (some cs)).femaleSpend = genderSpend "female" cs
    ∧ (demographicMetrics (some cs)).femaleRevenue = genderRevenue "female" cs :=
  ⟨maleClicks_char cs, maleSpend_char cs, maleRevenue_char cs,
   femaleClicks_char cs, femaleSpend_char cs, femaleRevenue_char cs⟩

/-- Claim C9: the regional aggregator reports no top region exactly when no
(region, country) group has revenue strictly greater than zero — even when
group records exist. -/
theorem claim_C9_topRegion_none (cs : List Campaign) :
    (regionalMetrics (some cs)).topRegion = none
      ↔ ∀ g ∈ (regionalMetrics (some cs)).regionalData, ¬ (0 < g.revenue) := by
  rw [regionalMetrics_top, regionalMetrics_data]
  exact topFold_none_iff (regionalDataOf cs)

/-- Claim C5: whenever a top region is reported it is a group of the output
with maximal revenue, and every group strictly before it in first-encounter
order has strictly smaller revenue — so on a revenue tie the earlier group
is kept (the fold's strict `>` never promotes on ties). -/
theorem claim_C5_top_region (cs : List Campaign) (t : RegionGroup)
    (h : (regionalMetrics (some cs)).topRegion = some t) :
    t ∈ (regionalMetrics (some cs)).regionalData
    ∧ (∀ g ∈ (regionalMetrics (some cs)).regionalData, g.revenue ≤ t.revenue)
    ∧ ∃ i, ((regionalMetrics (some cs)).regionalData)[i]? = some t
        ∧ ∀ (j : ℕ) (g : RegionGroup), j < i
            → ((regionalMetrics (some cs)).regionalData)[j]? = some g
            → g.revenue < t.revenue := by
  rw [regionalMetrics_top] at h
  rw [regionalMetrics_data]
  rcases topFold_char (regionalDataOf cs) none with ⟨heq, _⟩
    | ⟨i, u, hget, hfold, _, hpre, hub⟩
  · rw [heq] at h
    exact absurd h (by simp)
  · rw [hfold] at h
    have hut : u = t := by injection h
    rw [hut] at hget hpre hub
    exact ⟨List.getElem?_mem hget, hub, ⟨i, hget, hpre⟩⟩

/-- Claim C4: when every weekly entry's `week_start` parses as a date, the
weekly aggregator's output sequence is sorted ascending by the parsed
`week_start` value. -/
theorem claim_C4_weekly_sorted (cs : List Campaign)
    (h : ∀ c ∈ cs, ∀ w ∈ c.weekly_performance, (parseDate w.week_start).isSome) :
    List.Sorted wle (((weeklyMetrics (some cs)).weeklyData).getD []) := by
  rw [weeklyMetrics_data, Option.getD_some]
  exact List.sorted_insertionSort wle _

/-- Claim C6: device entries labelled neither exactly `"Mobile"` nor exactly
`"Desktop"` contribute nothing to either bucket — dropping them leaves both
buckets (base counters, `campaignCount`, `ctr`, `conversion_rate`, and the
shared-denominator `percentage_of_traffic`) unchanged. -/
theorem claim_C6_device_exclusivity (cs : List Campaign) :
    (deviceMetrics (some (cs.map dropUnknownDevices))).mobile
        = (deviceMetrics (some cs)).mobile
    ∧ (deviceMetrics (some (cs.map dropUnknownDevices))).desktop
        = (deviceMetrics (some cs)).desktop := by
  have hm := mobile_acc_drop cs
  have hd := desktop_acc_drop cs
  constructor <;> simp only [deviceMetrics] <;> rw [hm, hd]

/-- Claim C10: the flat `performanceByCampaign` list holds exactly one row
per device entry of every campaign, in input order, entries with
unrecognised labels included; each row's `roas` is `revenue / spend` when
the entry's spend is positive and `0` otherwise. -/
theorem claim_C10_flat_rows (cs : List Campaign) :
    (deviceMetrics (some cs)).performanceByCampaign
        = cs.flatMap (fun c => c.device_performance.map (deviceRow c.name))
    ∧ ∀ c ∈ cs, ∀ d ∈ c.device_performance,
        (deviceRow c.name d).roas
          = if 0 < d.spend then d.revenue / d.spend else 0 :=
  ⟨rows_char cs, fun _ _ _ _ => rfl⟩

/-- Claim C10 witness: a concrete campaign with a `"Mobile"` and a
`"Tablet"` entry yields exactly one row per entry in input order, and the
zero-spend row's `roas` is `0`. -/
theorem claim_C10_witness :
    (deviceMetrics (some [devCampaign])).performanceByCampaign
        = [deviceRow devCampaign.name devMob, deviceRow devCampaign.name devTab]
    ∧ (deviceRow devCampaign.name devTab).roas = 0 := by
  constructor
  · rw [(claim_C10_flat_rows [devCampaign]).1]
    simp [devCampaign]
  · rw [(claim_C10_flat_rows [devCampaign]).2 devCampaign (by simp) devTab
      (by simp [devCampaign])]
    norm_num [devTab]

/-- Claim C1 counterexample: on a campaign whose single regional entry
stores `ctr = 999` against counters giving `5`, the singleton output group
keeps the stored derived fields, so not every group satisfies the §4.1
formulas. -/
theorem claim_C1_counterexample :
    ¬ ∀ g ∈ (regionalMetrics (some [cexCampaignC1])).regionalData,
        derivedEqs g := by
  intro hall
  have hmem : (⟨cexRegionalEntry, 1⟩ : RegionGroup)
      ∈ (regionalMetrics (some [cexCampaignC1])).regionalData := by
    norm_num [regionalMetrics, regionalDataOf, regMapOf, regStep, regUpd,
      regInit, regKey, upsert, cexCampaignC1, cexRegionalEntry]
  have hd := hall _ hmem
  simp only [derivedEqs] at hd
  have hctr := hd.1
  norm_num [cexRegionalEntry, ctrOf] at hctr

/-- Claim C1 (amended): every regional output group to which at least two
entries contributed has all five derived metrics equal to the §4.1 formulas
on its final summed base counters (a singleton group instead carries its
sole entry's stored derived fields verbatim). -/
theorem claim_C1_amended (cs : List Campaign) (g : RegionGroup)
    (hg : g ∈ (regionalMetrics (some cs)).regionalData)
    (hc : 2 ≤ g.campaignCount) : derivedEqs g := by
  rw [regionalMetrics_data] at hg
  exact regionalData_derived cs g hg hc

/-- Claim C1 witness: the spec's §8.7 two-campaign example produces the
`("Dubai", "UAE")` group with counters 3000/150/15/300/900, campaign count
2, and recomputed ctr 5, conversion rate 10, cpc 2, cpa 20, roas 3. -/
theorem claim_C1_witness :
    e2eGroup ∈ (regionalMetrics (some [e2eCampaign1, e2eCampaign2])).regionalData
    ∧ 2 ≤ e2eGroup.campaignCount
    ∧ derivedEqs e2eGroup := by
  have hmem : e2eGroup
      ∈ (regionalMetrics (some [e2eCampaign1, e2eCampaign2])).regionalData := by
    norm_num [regionalMetrics, regionalDataOf, regMapOf, regStep, regUpd,
      regInit, regAdd, regKey, upsert, e2eCampaign1, e2eCampaign2, e2eGroup,
      ctrOf, convRateOf, cpcOf, cpaOf, roasOf]
  exact ⟨hmem, by norm_num [e2eGroup],
    claim_C1_amended _ _ hmem (by norm_num [e2eGroup])⟩

/-- Claim C2 counterexample: on an empty (present) campaign list the device
buckets' `percentage_of_traffic` is the non-finite `0 / 0` (`NaN`, modelled
`none`), not the zero the claim asserts. -/
theorem claim_C2_counterexample :
    (deviceMetrics (some [])).mobile.percentage_of_traffic = none
    ∧ (deviceMetrics (some [])).mobile.percentage_of_traffic ≠ some 0 := by
  have h0 : (deviceMetrics (some [])).mobile.percentage_of_traffic = none := by
    norm_num [deviceMetrics, devAccOf, finalizeBucket, emptyBucket, trafficShare]
  exact ⟨h0, by rw [h0]; simp⟩

/-- Claim C2 (amended): on an absent dataset every aggregator returns its
all-zero early-return object (with the weekly `weeklyData` field absent,
i.e. `undefined`), and on an empty list every numeric total is zero and the
row/group collections are empty — except that both device buckets'
`percentage_of_traffic` is `NaN` (`none`), because the traffic-share
division is unguarded, and the three device comparison series still hold
their two fixed zero-valued points. -/
theorem claim_C2_amended :
    regionalMetrics none = ⟨0, 0, 0, 0, 0, [], none⟩
    ∧ regionalMetrics (some []) = ⟨0, 0, 0, 0, 0, [], none⟩
    ∧ weeklyMetrics none = ⟨0, 0, 0, 0, 0, [], [], [], [], none⟩
    ∧ weeklyMetrics (some []) = ⟨0, 0, 0, 0, 0, [], [], [], [], some []⟩
    ∧ demographicMetrics none = ⟨0, 0, 0, 0, 0, 0, [], [], [], []⟩
    ∧ demographicMetrics (some []) = ⟨0, 0, 0, 0, 0, 0, [], [], [], []⟩
    ∧ deviceMetrics none = ⟨emptyBucket, emptyBucket, [], [], [], []⟩
    ∧ (deviceMetrics (some [])).mobile = ⟨0, 0, 0, 0, 0, 0, 0, none, 0⟩
    ∧ (deviceMetrics (some [])).desktop = ⟨0, 0, 0, 0, 0, 0, 0, none, 0⟩
    ∧ (deviceMetrics (some [])).performanceByCampaign = []
    ∧ (deviceMetrics (some [])).deviceComparison
        = [⟨"Mobile", 0, "#3B82F6"⟩, ⟨"Desktop", 0, "#10B981"⟩]
    ∧ (deviceMetrics (some [])).roasComparison
        = [⟨"Mobile", 0, "#3B82F6"⟩, ⟨"Desktop", 0, "#10B981"⟩]
    ∧ (deviceMetrics (some [])).conversionRateComparison
        = [⟨"Mobile", 0, "#3B82F6"⟩, ⟨"Desktop", 0, "#10B981"⟩] := by
  refine ⟨rfl, ?_, rfl, ?_, rfl, ?_, rfl, ?_, ?_, ?_, ?_, ?_, ?_⟩ <;>
    norm_num [regionalMetrics, regionalDataOf, regMapOf, regTotals,
      weeklyMetrics, weeklyGroups, weeklyMapOf, weekTotals,
      demographicMetrics, demoAccOf, demoInit, ageRows,
      deviceMetrics, devAccOf, finalizeBucket, emptyBucket, trafficShare,
      ctrOf, convRateOf, roasOf]

/-- Claim C5 witness: with two regions both at revenue 500, the first one
encountered is reported as top region, is maximal, and everything before it
(nothing) is strictly smaller. -/
theorem claim_C5_witness :
    (regionalMetrics (some [tieCampaign])).topRegion = some tieGroupA
    ∧ tieGroupA ∈ (regionalMetrics (some [tieCampaign])).regionalData
    ∧ (∀ g ∈ (regionalMetrics (some [tieCampaign])).regionalData,
        g.revenue ≤ tieGroupA.revenue)
    ∧ ∃ i, ((regionalMetrics (some [tieCampaign])).regionalData)[i]?
          = some tieGroupA
        ∧ ∀ (j : ℕ) (g : RegionGroup), j < i
            → ((regionalMetrics (some [tieCampaign])).regionalData)[j]? = some g
            → g.revenue < tieGroupA.revenue := by
  have h : (regionalMetrics (some [tieCampaign])).topRegion = some tieGroupA := by
    simp [regionalMetrics, regionalDataOf, regMapOf, regStep, regUpd,
      regInit, regKey, upsert, topStep, bestRev, tieCampaign, tieEntryA,
      tieEntryB, tieGroupA]
  obtain ⟨h1, h2, h3⟩ := claim_C5_top_region [tieCampaign] tieGroupA h
  exact ⟨h, h1, h2, h3⟩

/-- Claim C4 witness: weekly entries arriving with `week_start` values
`"2024-02-01"`, `"2024-01-01"`, `"2024-03-01"` in that order are all
parseable, the output is sorted, and it reads January, February, March. -/
theorem claim_C4_witness :
    (∀ c ∈ [weeklyCampaign], ∀ w ∈ c.weekly_performance,
      (parseDate w.week_start).isSome)
    ∧ List.Sorted wle (((weeklyMetrics (some [weeklyCampaign])).weeklyData).getD [])
    ∧ (((weeklyMetrics (some [weeklyCampaign])).weeklyData).getD []).map
        (fun w => w.week_start)
      = ["2024-01-01", "2024-02-01", "2024-03-01"] := by
  refine ⟨?_, claim_C4_weekly_sorted [weeklyCampaign] ?_, ?_⟩
  · decide
  · decide
  · decide

/-- Claim C7: the demographic aggregator allocates spend and revenue per
entry as the campaign total times `percentage_of_audience / 100`; on one
campaign with spend 1000, revenue 2000 and entries at 60% and 40%, the
allocations are 600/400 and 1200/800, and they sum back to the campaign
totals. -/
theorem claim_C7_allocation :
    (∀ (cs : List Campaign) (k : String),
      chartAt k ((demographicMetrics (some cs)).ageGroupSpend)
          = (((demoEntries cs).filter (fun e => e.2.2.age_group == k)).map
              allocSpend).sum
      ∧ chartAt k ((demographicMetrics (some cs)).ageGroupRevenue)
          = (((demoEntries cs).filter (fun e => e.2.2.age_group == k)).map
              allocRevenue).sum)
    ∧ chartAt "18-24" ((demographicMetrics (some [allocCampaign])).ageGroupSpend)
        = 600
    ∧ chartAt "25-34" ((demographicMetrics (some [allocCampaign])).ageGroupSpend)
        = 400
    ∧ chartAt "18-24" ((demographicMetrics (some [allocCampaign])).ageGroupRevenue)
        = 1200
    ∧ chartAt "25-34" ((demographicMetrics (some [allocCampaign])).ageGroupRevenue)
        = 800
    ∧ (600 : ℚ) + 400 = allocCampaign.spend
    ∧ (1200 : ℚ) + 800 = allocCampaign.revenue := by
  refine ⟨fun cs k => ⟨ageSpend_char cs k, ageRev_char cs k⟩, ?_, ?_, ?_, ?_, ?_, ?_⟩ <;>
    norm_num [demographicMetrics, demoAccOf, demoInit, demoStep, upsert,
      initZero, addAlloc, addAge, lowerIs, chartAt, allocCampaign] <;>
    simp

end Amana
